import Mathlib

/-!
# Verification of the multi-strategy article-discovery engine

A shallow embedding of the scraper in `src/scraper.py` and
`src/playwright_scraper.py`.  External effects (HTTP fetches, HTML/CSS
selection, the feed parser, the headless browser) are modelled as oracle
inputs: each strategy receives the values those libraries would have
produced, and the control flow of the Python code is translated
faithfully on top of them.  Python exceptions are modelled with `Except`,
`None`-able values with `Option`, and Python string operations with
executable functions over `List Char`.
-/

/-- A Python `datetime.date`: a calendar date (year, month, day). -/
structure Date where
  year : Nat
  month : Nat
  day : Nat
deriving DecidableEq

/-- Python `date` comparison `a <= b`: lexicographic on (year, month, day). -/
def dateLe (a b : Date) : Bool :=
  if a.year = b.year then
    (if a.month = b.month then a.day ≤ b.day else a.month ≤ b.month)
  else a.year ≤ b.year

/-- A Python `datetime.datetime`: a date, a time of day, and whether a
timezone (always UTC in this program) is attached (`tzinfo is not None`). -/
structure PyDateTime where
  date : Date
  hour : Nat
  minute : Nat
  second : Nat
  tzUtc : Bool
deriving DecidableEq

/-- `if pub_date.tzinfo is None: pub_date = pub_date.replace(tzinfo=timezone.utc)`. -/
def fixTz (dt : PyDateTime) : PyDateTime :=
  if dt.tzUtc then dt else { dt with tzUtc := true }

/-- Kinds of Python exception relevant to the embedding. -/
inductive PyErr where
  | keyError
  | attrError
  | reqError
deriving DecidableEq

/-- Gregorian leap-year rule (used by `datetime` and `dateutil`). -/
def isLeap (y : Nat) : Bool :=
  (y % 4 == 0 && y % 100 != 0) || y % 400 == 0

/-- Number of days in a month of the Gregorian calendar. -/
def daysInMonth (y m : Nat) : Nat :=
  if m = 2 then (if isLeap y then 29 else 28)
  else if m = 4 ∨ m = 6 ∨ m = 9 ∨ m = 11 then 30
  else 31

/-- The previous calendar day. -/
def datePred (d : Date) : Date :=
  if 2 ≤ d.day then ⟨d.year, d.month, d.day - 1⟩
  else if 2 ≤ d.month then ⟨d.year, d.month - 1, daysInMonth d.year (d.month - 1)⟩
  else ⟨d.year - 1, 12, 31⟩

/-- Move a date back by `n` calendar days. -/
def datePredDays : Date → Nat → Date
  | d, 0 => d
  | d, n + 1 => datePredDays (datePred d) n

/-- `(now - timedelta(hours=lookback_hours)).date()` for a UTC `now`
(scraper.py line 268): the cutoff date of a run. -/
def cutoffOf (now : PyDateTime) (lookback_hours : Nat) : Date :=
  if lookback_hours ≤ now.hour then now.date
  else datePredDays now.date (1 + (lookback_hours - now.hour - 1) / 24)

/-- Decimal digit character (digits 0-9). -/
def digitChar : Nat → Char
  | 0 => '0' | 1 => '1' | 2 => '2' | 3 => '3' | 4 => '4'
  | 5 => '5' | 6 => '6' | 7 => '7' | 8 => '8' | _ => '9'

/-- Decimal digits, least-significant first, on fuel (`n + 1` always
suffices, as dividing by ten shrinks the number). -/
def natDigitsRevAux : Nat → Nat → List Char
  | 0, _ => []
  | fuel + 1, n =>
    if n < 10 then [digitChar n] else digitChar (n % 10) :: natDigitsRevAux fuel (n / 10)

/-- Decimal digits of a natural number, least-significant first. -/
def natDigitsRev (n : Nat) : List Char := natDigitsRevAux (n + 1) n

theorem natDigitsRevAux_congr :
    ∀ f1 f2 n, n < f1 → n < f2 → natDigitsRevAux f1 n = natDigitsRevAux f2 n := by
  intro f1
  induction f1 with
  | zero => intro f2 n h1 _; omega
  | succ f ih =>
    intro f2 n h1 h2
    cases f2 with
    | zero => omega
    | succ f2' =>
      simp only [natDigitsRevAux]
      by_cases h : n < 10
      · simp [h]
      · simp only [h, if_false]
        have hdiv : n / 10 < n := Nat.div_lt_self (by omega) (by norm_num)
        rw [ih f2' (n / 10) (by omega) (by omega)]

theorem natDigitsRev_eq (n : Nat) :
    natDigitsRev n = if n < 10 then [digitChar n] else digitChar (n % 10) :: natDigitsRev (n / 10) := by
  have hstep : natDigitsRev n =
      if n < 10 then [digitChar n] else digitChar (n % 10) :: natDigitsRevAux n (n / 10) := rfl
  rw [hstep]
  by_cases h : n < 10
  · simp [h]
  · simp only [h, if_false]
    have hdiv : n / 10 < n := Nat.div_lt_self (by omega) (by norm_num)
    rw [natDigitsRevAux_congr n (n / 10 + 1) (n / 10) (by omega) (by omega)]
    rfl

/-- Decimal representation of a natural number, as Python `str(n)` /
an f-string would render it. -/
def natRepr (n : Nat) : List Char := (natDigitsRev n).reverse

/-- Decimal representation as a `String`. -/
def natS (n : Nat) : String := String.mk (natRepr n)

/-- Zero-padded two-digit field (as in `strftime` `%m`, `%d`, `%H`...). -/
def pad2 (n : Nat) : String := if n < 10 then "0" ++ natS n else natS n

/-- Zero-padded four-digit year field (`strftime` `%Y`). -/
def pad4 (n : Nat) : String :=
  if n < 10 then "000" ++ natS n
  else if n < 100 then "00" ++ natS n
  else if n < 1000 then "0" ++ natS n
  else natS n

/-- `pub_date.strftime("%Y-%m-%d")`. -/
def fmtYMD (d : Date) : String :=
  pad4 d.year ++ "-" ++ pad2 d.month ++ "-" ++ pad2 d.day

/-- `strftime` month abbreviations for `%b`. -/
def monthAbbrevs : List String :=
  ["Jan", "Feb", "Mar", "Apr", "May", "Jun", "Jul", "Aug", "Sep", "Oct", "Nov", "Dec"]

/-- `pub_date.strftime("%b %d, %Y")`. -/
def fmtBdY (dt : PyDateTime) : String :=
  (monthAbbrevs.getD (dt.date.month - 1) "") ++ " " ++ pad2 dt.date.day ++ ", " ++ pad4 dt.date.year

/-- `pub_date.isoformat()`: `+00:00` suffix exactly when a timezone is attached. -/
def isoformat (dt : PyDateTime) : String :=
  fmtYMD dt.date ++ "T" ++ pad2 dt.hour ++ ":" ++ pad2 dt.minute ++ ":" ++ pad2 dt.second ++
    (if dt.tzUtc then "+00:00" else "")

/-! ## Python string operations, modelled over `List Char` -/

/-- Python `s.split(sep)` for a single separator character: splits on every
occurrence, keeping empty pieces. -/
def splitChar (sep : Char) : List Char → List (List Char)
  | [] => [[]]
  | c :: rest =>
    let r := splitChar sep rest
    if c = sep then [] :: r
    else
      match r with
      | t :: ts => (c :: t) :: ts
      | [] => [[c]]

/-- Python `s.strip()`: remove leading and trailing whitespace. -/
def trimChars (l : List Char) : List Char :=
  ((l.dropWhile Char.isWhitespace).reverse.dropWhile Char.isWhitespace).reverse

/-- Does `pat` occur at the start of `l`? -/
def leadsWith : List Char → List Char → Bool
  | [], _ => true
  | _ :: _, [] => false
  | p :: ps, c :: cs => p == c && leadsWith ps cs

/-- Split `l` at the first occurrence of `pat` (nonempty): the part before
and the part after the occurrence.  `none` when `pat` does not occur. -/
def splitAtSub (pat : List Char) : List Char → Option (List Char × List Char)
  | [] => none
  | c :: cs =>
    if leadsWith pat (c :: cs) then some ([], (c :: cs).drop pat.length)
    else
      match splitAtSub pat cs with
      | some (pre, post) => some (c :: pre, post)
      | none => none

/-- Python `pat in s` for a nonempty pattern. -/
def containsSub (pat l : List Char) : Bool := (splitAtSub pat l).isSome

/-- Python `s.split(sep)[0]` for a multi-character separator. -/
def headBeforeSub (pat l : List Char) : List Char :=
  match splitAtSub pat l with
  | some (pre, _) => pre
  | none => l

/-- Python `s.replace(pat, '')` for a nonempty `pat`. -/
def removeSubGo (p : Char) (ps : List Char) : List Char → List Char
  | [] => []
  | c :: cs =>
    if leadsWith (p :: ps) (c :: cs) then removeSubGo p ps (cs.drop ps.length)
    else c :: removeSubGo p ps cs
termination_by l => l.length
decreasing_by
  · simp only [List.length_cons, List.length_drop]; omega
  · simp only [List.length_cons]; omega

/-- Python `s.replace(pat, '')` (identity on an empty pattern never used here). -/
def removeSub (pat l : List Char) : List Char :=
  match pat with
  | [] => l
  | p :: ps => removeSubGo p ps l

/-- Python `s.endswith(pat)`. -/
def endsWithSub (pat l : List Char) : Bool := leadsWith pat.reverse l.reverse

/-- String-level wrappers used by the embedded scraper code. -/
def pyContains (s pat : String) : Bool := containsSub pat.data s.data

def pyStartsWith (s pat : String) : Bool := leadsWith pat.data s.data

def pyEndsWith (s pat : String) : Bool := endsWithSub pat.data s.data

def pyReplace (s pat : String) : String := String.mk (removeSub pat.data s.data)

def pyTrim (s : String) : String := String.mk (trimChars s.data)

def pyLower (s : String) : String := String.mk (s.data.map Char.toLower)

/-- Python `url.split('?')[0]`: everything before the first `'?'`. -/
def strBeforeQ (s : String) : String := String.mk (s.data.takeWhile (fun c => c != '?'))

/-- Python `url.rstrip('/')`: strip all trailing `'/'` characters. -/
def rstripSlash (s : String) : String :=
  String.mk ((s.data.reverse.dropWhile (fun c => c == '/')).reverse)

/-- `normalize_url` (scraper.py lines 42-45): empty/`None` input yields `""`;
otherwise query parameters and trailing slashes are removed. -/
def normalize_url (url : Option String) : String :=
  match url with
  | none => ""
  | some s => if s = "" then "" else rstripSlash (strBeforeQ s)

/-! ## `dateutil.parser.parse`, modelled on the program's date grammar

The scraper hands `dateutil` four shapes of token: `"Mon D, YYYY"` /
`"Month D, YYYY"` (listing and detail pages), `"D Month YYYY"` (the Uber
format after year injection), and ISO dates `"YYYY-MM-DD..."` (sitemap
`lastmod`, `article:published_time`).  The model below parses exactly
those shapes: a month name must be the full English name or its 3-letter
abbreviation (case-insensitive) and a year must have four digits, as is
the case for every string the program can feed it (the injected year is
`datetime.now().year`).  The result carries no timezone, as `dateutil`
reports for these inputs, at time 00:00. -/

/-- Python `int(token)` on a digit string. -/
def tokToNat (t : List Char) : Option Nat :=
  if !t.isEmpty && t.all Char.isDigit then
    some (t.foldl (fun a c => 10 * a + (c.toNat - 48)) 0)
  else none

/-- The English month names, lowercase. -/
def monthNamesL : List (List Char) :=
  ["january".data, "february".data, "march".data, "april".data, "may".data, "june".data,
   "july".data, "august".data, "september".data, "october".data, "november".data, "december".data]

def monthIdxAux : List (List Char) → Nat → List Char → Option Nat
  | [], _, _ => none
  | nm :: rest, i, tok =>
    if tok == nm || tok == nm.take 3 then some i else monthIdxAux rest (i + 1) tok

/-- Month number (1-12) named by a token, if any. -/
def monthIndexOf (tok : List Char) : Option Nat :=
  monthIdxAux monthNamesL 1 (tok.map Char.toLower)

/-- Validity check performed by `datetime`: year 1-9999 (the program only
produces 4-digit years), month 1-12, day within the month. -/
def mkParsedDate (y m d : Nat) : Option PyDateTime :=
  if 1000 ≤ y ∧ y ≤ 9999 ∧ 1 ≤ m ∧ m ≤ 12 ∧ 1 ≤ d ∧ d ≤ daysInMonth y m then
    some ⟨⟨y, m, d⟩, 0, 0, 0, false⟩
  else none

/-- ISO-format token `YYYY-MM-DD` with an optional `T...` time suffix. -/
def parseIsoTok (t : List Char) : Option PyDateTime :=
  match splitChar '-' (headBeforeSub ['T'] t) with
  | [ys, ms, ds] =>
    match tokToNat ys, tokToNat ms, tokToNat ds with
    | some y, some m, some d => mkParsedDate y m d
    | _, _, _ => none
  | _ => none

/-- Whitespace/comma tokenization of a date string. -/
def dateTokens (l : List Char) : List (List Char) :=
  (splitChar ' ' (l.map (fun c => if c == ',' then ' ' else c))).filter (fun t => !t.isEmpty)

/-- The `dateutil.parser.parse` model over characters; `today` supplies the
default year for tokens without one, as `dateutil` defaults missing fields
to the current date. -/
def dateutilChars (today : Date) (l : List Char) : Option PyDateTime :=
  match dateTokens l with
  | [a] => parseIsoTok a
  | [a, b] =>
    (match monthIndexOf a, tokToNat b with
     | some m, some d => mkParsedDate today.year m d
     | _, _ =>
       match monthIndexOf b, tokToNat a with
       | some m, some d => mkParsedDate today.year m d
       | _, _ => none)
  | [a, b, c] =>
    (match monthIndexOf b, tokToNat a, tokToNat c with
     | some m, some d, some y => mkParsedDate y m d
     | _, _, _ =>
       match monthIndexOf a, tokToNat b, tokToNat c with
       | some m, some d, some y => mkParsedDate y m d
       | _, _, _ => none)
  | _ => none

/-- `dateutil.parser.parse` on a Python string. -/
def dateutil_parse (today : Date) (s : String) : Option PyDateTime :=
  dateutilChars today s.data

/-! ## Data model -/

/-- A source configuration dict (scraper.py `SOURCES`).  Each field models one
key of the Python dict: `none` means the key is absent (so a `['...']`
subscript raises `KeyError`, while `.get` returns `None`).  For
`link_selector` the stored value itself may be `None`, hence the nested
`Option`. -/
structure SourceConfig where
  name : Option String
  type_ : Option String
  url : Option String
  base_url : Option String
  sitemap_url : Option String
  article_selector : Option String
  title_selector : Option String
  date_selector : Option String
  link_selector : Option (Option String)

/-- The canonical output record appended to the articles list.  The Python
dict fields `source`, `title`, `date`, `timestamp` always receive strings;
`url` receives whatever the `link` variable holds, which can be `None` on
the generic HTML path.  `resolvedDate` records `pub_date.date()` at the
moment of emission — the calendar part of `timestamp`. -/
structure Article where
  source : String
  title : String
  date : String
  url : Option String
  timestamp : String
  resolvedDate : Date
deriving DecidableEq

/-- Python truthiness of an optional string (`None` and `""` are falsy). -/
def truthyS : Option String → Bool
  | none => false
  | some s => s != ""

/-! ## SitemapDateIndex: `fetch_sitemap_dates` (scraper.py lines 47-69) -/

/-- One `<url>` element of a sitemap, as seen through `ElementTree`:
`loc`/`lastmod` are `none` when the child element is missing (so `.find`
returns `None`), and otherwise carry the element's text, itself `None`-able. -/
structure UrlTag where
  loc : Option (Option String)
  lastmod : Option (Option String)
deriving DecidableEq

/-- A Python dict from normalized URL to `lastmod` text, as an assoc list. -/
def SiteDict := List (String × Option String)
deriving DecidableEq

/-- Python dict assignment `d[k] = v`: overwrite in place or append. -/
def dictInsert (d : SiteDict) (k : String) (v : Option String) : SiteDict :=
  match d with
  | [] => [(k, v)]
  | (k', v') :: rest => if k' == k then (k, v) :: rest else (k', v') :: dictInsert rest k v

/-- Python dict lookup / `in` test. -/
def dictFind : SiteDict → String → Option (Option String)
  | [], _ => none
  | (k', v) :: rest, k => if k' == k then some v else dictFind rest k

/-- The `for url_tag in root.findall('s:url', ns)` loop.  Accessing `.text`
of a missing `<loc>` element raises `AttributeError` (scraper.py line 60);
an entry is stored only when `loc` is truthy and a `<lastmod>` element is
present. -/
def sitemapLoop : List UrlTag → SiteDict → Except PyErr SiteDict
  | [], d => .ok d
  | e :: rest, d =>
    match e.loc with
    | none => .error .attrError
    | some locText =>
      match e.lastmod with
      | some lm =>
        if truthyS locText then sitemapLoop rest (dictInsert d (normalize_url locText) lm)
        else sitemapLoop rest d
      | none => sitemapLoop rest d

/-- `fetch_sitemap_dates`: the oracle input is the outcome of the HTTP GET
plus XML parse (`.error` for any fetch/parse failure).  Any exception in
the body — including the `AttributeError` of a loc-less entry — is caught
and an empty dict returned. -/
def fetch_sitemap_dates (resp : Except PyErr (List UrlTag)) : SiteDict :=
  match resp with
  | .error _ => []
  | .ok entries =>
    match sitemapLoop entries [] with
    | .ok d => d
    | .error _ => []

/-! ## TitleResolver: `fetch_title_from_page` (scraper.py lines 72-110) -/

/-- A fetched page as probed by `fetch_title_from_page`.  For the two meta
probes the outer `Option` is element presence and the inner one the
`content` attribute; `h1Text`/`titleText` are `get_text(strip=True)` of the
first matching element, `none` when no element matches. -/
structure TitlePage where
  ogContent : Option (Option String)
  twContent : Option (Option String)
  h1Text : Option String
  titleText : Option String
deriving DecidableEq

/-- `tag and tag.get('content')`: the content attribute when the element
exists and the attribute is truthy. -/
def metaVal : Option (Option String) → Option String
  | some (some c) => if c != "" then some c else none
  | _ => none

/-- The `<title>` suffix-stripping loop (scraper.py lines 102-104): each
separator found in the title replaces it by the part before the separator,
stripped. -/
def stripTitleSeps (t : String) : String :=
  [" | ", " \\ ", " - ", " â€“ "].foldl
    (fun acc sep =>
      if containsSub sep.data acc.data then pyTrim (String.mk (headBeforeSub sep.data acc.data))
      else acc) t

/-- `fetch_title_from_page`: probes og:title content, twitter:title content,
`<h1>` text, then suffix-stripped `<title>` text; `None` when the fetch
fails or no probe matches. -/
def fetch_title_from_page (resp : Except PyErr TitlePage) : Option String :=
  match resp with
  | .error _ => none
  | .ok p =>
    match metaVal p.ogContent with
    | some c => some (pyTrim c)
    | none =>
      match metaVal p.twContent with
      | some c => some (pyTrim c)
      | none =>
        match p.h1Text with
        | some t => some t
        | none =>
          match p.titleText with
          | some t => some (stripTitleSeps t)
          | none => none

/-! ## RenderedPage strategy: `playwright_scraper.py` -/

/-- Does a character run of ≥ 4 digits occur (Python `re.search(r'\d{4}', s)`)?
The counter is the length of the current digit run. -/
def hasRun4Aux : List Char → Nat → Bool
  | [], _ => false
  | c :: rest, k =>
    if c.isDigit then (if 3 ≤ k then true else hasRun4Aux rest (k + 1))
    else hasRun4Aux rest 0

def hasRun4 (l : List Char) : Bool := hasRun4Aux l 0

/-- `parse_uber_date` (playwright_scraper.py lines 25-49): strip the region
suffix after `'/'`, inject the current year when the token has no 4-digit
run, parse with `dateutil`, and anchor a zone-less result to UTC.  `today`
models `datetime.now()`. -/
def parse_uber_date (today : Date) (date_str : Option String) : Option PyDateTime :=
  match date_str with
  | none => none
  | some s =>
    if s.data.isEmpty then none
    else
      let date_part := trimChars ((splitChar '/' s.data).headD [])
      let date_part :=
        if hasRun4 date_part then date_part
        else date_part ++ ' ' :: natRepr today.year
      (dateutilChars today date_part).map fixTz

/-- One anchor card found by `page.query_selector_all('a[href*="/blog/"]')`:
the `href` attribute, the inner text of the first `h2, h3` inside it, and
the result of the date-pattern regex over the card's inner text. -/
structure UberCard where
  href : Option String
  titleText : Option String
  dateMatch : Option String
deriving DecidableEq

/-- Oracle for one Playwright session: the launch/navigation outcome with
the discovered cards. -/
structure UberEnv where
  launched : Except PyErr (List UberCard)

/-- The card loop of `scrape_uber_engineering` (lines 95-163), threading the
`seen_urls` set.  Deduplication removes query parameters only (line 114). -/
def uberLoop (today : Date) (cutoff : Date) (srcName baseUrl : String) :
    List UberCard → List String → List Article
  | [], _ => []
  | card :: rest, seen =>
    match card.href with
    | none => uberLoop today cutoff srcName baseUrl rest seen
    | some href =>
      if href = "" then uberLoop today cutoff srcName baseUrl rest seen
      else if pyContains href "/blog/engineering/" && pyEndsWith href "engineering/" then
        uberLoop today cutoff srcName baseUrl rest seen
      else if rstripSlash href = "/blog/engineering" then
        uberLoop today cutoff srcName baseUrl rest seen
      else
        let full_url := if pyStartsWith href "/" then baseUrl ++ href else href
        let clean_url := strBeforeQ full_url
        if clean_url ∈ seen then uberLoop today cutoff srcName baseUrl rest seen
        else
          let seen' := clean_url :: seen
          match card.titleText with
          | none => uberLoop today cutoff srcName baseUrl rest seen'
          | some t0 =>
            let title := pyTrim t0
            if title = "" then uberLoop today cutoff srcName baseUrl rest seen'
            else
              match card.dateMatch with
              | none => uberLoop today cutoff srcName baseUrl rest seen'
              | some ds =>
                match parse_uber_date today (some ds) with
                | none => uberLoop today cutoff srcName baseUrl rest seen'
                | some pd =>
                  if dateLe cutoff pd.date then
                    { source := srcName, title := title, date := fmtYMD pd.date,
                      url := some clean_url, timestamp := isoformat pd,
                      resolvedDate := pd.date } :: uberLoop today cutoff srcName baseUrl rest seen'
                  else uberLoop today cutoff srcName baseUrl rest seen'

/-- `scrape_uber_engineering` (lines 52-172): nothing without Playwright;
browser/navigation failure yields `[]`; otherwise the card loop runs with
an empty `seen_urls`. -/
def scrape_uber_engineering (today : Date) (pwAvail : Bool) (env : UberEnv)
    (src : SourceConfig) (cutoff : Date) : List Article :=
  if !pwAvail then []
  else
    let baseUrl := src.base_url.getD "https://www.uber.com"
    let srcName := src.name.getD "Uber Engineering"
    match env.launched with
    | .error _ => []
    | .ok cards => uberLoop today cutoff srcName baseUrl cards []

/-- `scrape_with_playwright` (lines 175-194): dispatch by source name. -/
def scrape_with_playwright (today : Date) (pwAvail : Bool) (env : UberEnv)
    (src : SourceConfig) (cutoff : Date) : List Article :=
  let source_name := src.name.getD ""
  if pyContains (pyLower source_name) "uber" then
    scrape_uber_engineering today pwAvail env src cutoff
  else []

/-! ## SemanticHTML strategy: `scrape_anthropic_engineering` (scraper.py lines 113-256) -/

/-- The probes of the detail-page fallback (lines 193-230): the
`article:published_time` meta element (presence / content attribute) and
the `Published <date>` regex match over the page text. -/
structure AnthDetailPage where
  metaPublished : Option (Option String)
  publishedMatch : Option String
deriving DecidableEq

/-- One link matched by `article_elem.select('a[href*="/engineering/"]')`:
`href` is `link.get('href', '')` (string, defaulted), `heading` the text of
the first `h1, h2, h3, h4` inside the link, and `linkDateMatch` the result
of the month-day-year regex over the link's text. -/
structure AnthLinkElem where
  href : String
  heading : Option String
  linkDateMatch : Option String
deriving DecidableEq

/-- One `<article>` element with its matching links. -/
structure AnthArticleElem where
  links : List AnthLinkElem
deriving DecidableEq

/-- Oracle for the Anthropic scraper: the listing-page fetch outcome, and
per-URL outcomes of the detail-page fetch used for dates and of the page
fetch performed inside `fetch_title_from_page`. -/
structure AnthEnv where
  page : Except PyErr (List AnthArticleElem)
  detail : String → Except PyErr AnthDetailPage
  titlePage : String → Except PyErr TitlePage

/-- The final guards and append (lines 234-251): drop a falsy title or a
missing date, then emit iff `pub_date.date() >= cutoff_date`; the `date`
field is `date_str` when truthy, else `strftime("%Y-%m-%d")`. -/
def anthEmit (cutoff : Date) (srcName clean_url : String)
    (title : Option String) (pub : Option PyDateTime) (dstr : Option String) : Option Article :=
  match title with
  | none => none
  | some t =>
    if t = "" then none
    else
      match pub with
      | none => none
      | some pd =>
        if dateLe cutoff pd.date then
          some { source := srcName, title := t,
                 date := match dstr with
                   | some s => if s != "" then s else fmtYMD pd.date
                   | none => fmtYMD pd.date,
                 url := some clean_url, timestamp := isoformat pd,
                 resolvedDate := pd.date }
        else none

/-- Title/date resolution for one link (lines 164-232): heading and regexed
date from the link itself, then — when either is missing — one detail-page
fetch resolving the title via `fetch_title_from_page` and the date via the
`article:published_time` meta field, then the `Published <date>` pattern.
`date_str` tracks the raw text whose parse produced the date (it is
assigned the regex match even when parsing then fails). -/
def anthLinkBody (today : Date) (env : AnthEnv) (cutoff : Date)
    (srcName clean_url : String) (link : AnthLinkElem) : Option Article :=
  let title0 := link.heading
  let dstr0 := link.linkDateMatch
  let pub0 : Option PyDateTime :=
    match link.linkDateMatch with
    | some ds => (dateutil_parse today ds).map fixTz
    | none => none
  let resolved :=
    if truthyS title0 && pub0.isSome then (title0, pub0, dstr0)
    else
      match env.detail clean_url with
      | .error _ => (title0, pub0, dstr0)
      | .ok dp =>
        let t1 := if truthyS title0 then title0 else fetch_title_from_page (env.titlePage clean_url)
        if pub0.isSome then (t1, pub0, dstr0)
        else
          let metaTry : Option PyDateTime :=
            match metaVal dp.metaPublished with
            | some c => (dateutil_parse today c).map fixTz
            | none => none
          match metaTry with
          | some pd => (t1, some pd, some (fmtBdY pd))
          | none =>
            match dp.publishedMatch with
            | some g => (t1, (dateutil_parse today g).map fixTz, some g)
            | none => (t1, none, dstr0)
  anthEmit cutoff srcName clean_url resolved.1 resolved.2.1 resolved.2.2

/-- The inner loop over links of one `<article>` element (lines 145-251),
threading the `seen_urls` set: skip links back to the listing page, build
the absolute URL, deduplicate on the query- and slash-stripped URL. -/
def anthLinks (today : Date) (env : AnthEnv) (cutoff : Date) (srcName baseUrl : String) :
    List AnthLinkElem → List String → List Article × List String
  | [], seen => ([], seen)
  | link :: rest, seen =>
    let href := link.href
    if rstripSlash href ∈ ["/engineering", "/engineering/"] then
      anthLinks today env cutoff srcName baseUrl rest seen
    else
      let full_url := if pyStartsWith href "/" then baseUrl ++ href else href
      let clean_url := rstripSlash (strBeforeQ full_url)
      if clean_url ∈ seen then anthLinks today env cutoff srcName baseUrl rest seen
      else
        let seen' := clean_url :: seen
        match anthLinkBody today env cutoff srcName clean_url link with
        | some a =>
          let r := anthLinks today env cutoff srcName baseUrl rest seen'
          (a :: r.1, r.2)
        | none => anthLinks today env cutoff srcName baseUrl rest seen'

/-- The outer loop over `<article>` elements (line 141). -/
def anthArticles (today : Date) (env : AnthEnv) (cutoff : Date) (srcName baseUrl : String) :
    List AnthArticleElem → List String → List Article
  | [], _ => []
  | ae :: rest, seen =>
    let r := anthLinks today env cutoff srcName baseUrl ae.links seen
    r.1 ++ anthArticles today env cutoff srcName baseUrl rest r.2

/-- `scrape_anthropic_engineering`: a listing fetch/parse failure is caught
by the function's own `try`/`except` and yields `[]`. -/
def scrape_anthropic_engineering (today : Date) (env : AnthEnv) (src : SourceConfig)
    (cutoff : Date) : List Article :=
  let srcName := src.name.getD "Anthropic Engineering"
  let baseUrl := src.base_url.getD "https://www.anthropic.com"
  match env.page with
  | .error _ => []
  | .ok elems => anthArticles today env cutoff srcName baseUrl elems []

/-! ## Feed strategy (scraper.py lines 295-350) -/

/-- A `time.struct_time` prefix as used by `datetime(*date_struct[:6], ...)`. -/
structure TimeStruct where
  year : Nat
  mon : Nat
  mday : Nat
  hour : Nat
  minute : Nat
  sec : Nat
deriving DecidableEq

/-- `datetime(*date_struct[:6], tzinfo=timezone.utc)`. -/
def tsToDT (ts : TimeStruct) : PyDateTime :=
  ⟨⟨ts.year, ts.mon, ts.mday⟩, ts.hour, ts.minute, ts.sec, true⟩

/-- One feedparser entry: `title` and `link` attributes, and the optional
normalized timestamps `published_parsed` / `updated_parsed` (absent key and
`None` value both model as `none` — both are falsy under `entry.get`). -/
structure FeedEntry where
  title : String
  link : String
  published_parsed : Option TimeStruct
  updated_parsed : Option TimeStruct
deriving DecidableEq

/-- Oracle for one feed source: the parsed feed's entries and the outcome of
the sitemap fetch, should it be needed. -/
structure FeedEnv where
  entries : List FeedEntry
  sitemapResp : Except PyErr (List UrlTag)

/-- Date resolution for one feed entry (lines 313-329): the native
`published_parsed or updated_parsed` timestamp as UTC, else — when a
sitemap dict was loaded and is truthy (nonempty) — the parsed `lastmod`
found under the normalized link, else nothing. -/
def feedEntryDate (today : Date) (sitemap_dates : Option SiteDict) (entry : FeedEntry) :
    Option PyDateTime :=
  match entry.published_parsed.orElse (fun _ => entry.updated_parsed) with
  | some ts => some (tsToDT ts)
  | none =>
    match sitemap_dates with
    | some d =>
      if d.isEmpty then none
      else
        match dictFind d (normalize_url (some entry.link)) with
        | some date_str =>
          match date_str with
          | some s => (dateutil_parse today s).map fixTz
          | none => none
        | none => none
    | none => none

/-- The per-entry body (lines 308-346): skip entries with no resolvable
date, emit iff `pub_date.date() >= cutoff_date`. -/
def processFeedEntry (today : Date) (sitemap_dates : Option SiteDict) (cutoff : Date)
    (srcName : String) (entry : FeedEntry) : Option Article :=
  match feedEntryDate today sitemap_dates entry with
  | none => none
  | some pd =>
    if dateLe cutoff pd.date then
      some { source := srcName, title := entry.title, date := fmtYMD pd.date,
             url := some entry.link, timestamp := isoformat pd, resolvedDate := pd.date }
    else none

/-- The feed branch of `check_for_new_articles`: load the sitemap index once
when a `sitemap_url` is configured, then process every entry.  A missing
`url` key raises inside the branch's `try` and is caught (`continue`). -/
def processFeedSource (today : Date) (env : FeedEnv) (src : SourceConfig) (cutoff : Date)
    (srcName : String) : List Article :=
  match src.url with
  | none => []
  | some _ =>
    let sitemap_dates : Option SiteDict :=
      match src.sitemap_url with
      | some u => if u != "" then some (fetch_sitemap_dates env.sitemapResp) else none
      | none => none
    env.entries.filterMap (processFeedEntry today sitemap_dates cutoff srcName)

/-! ## Generic HTML branch (scraper.py lines 352-448) -/

/-- One element matched by `soup.select(source['article_selector'])`:
results of the title/date selector probes, of `select_one(link_selector)`'s
`href`, and of the element's own `href` attribute. -/
structure GenArticleElem where
  titleTag : Option String
  dateTag : Option String
  linkBySel : Option String
  hrefAttr : Option String
deriving DecidableEq

/-- A detail page for the generic date fallback: text of the first element
whose class contains "date". -/
structure GenDetailPage where
  dateClass : Option String
deriving DecidableEq

/-- Oracle for one generic source: listing fetch outcome and per-URL
detail-page fetch outcomes. -/
structure GenEnv where
  fetchG : Except PyErr (List GenArticleElem)
  detailFetch : String → Except PyErr GenDetailPage

/-- Link extraction (lines 384-391 and 424-431): `source['link_selector']`
(a `KeyError` when the key is absent), the selector result when truthy,
else the element's own `href`; relative links are prefixed with
`source['base_url']`. -/
def genExtractLink (src : SourceConfig) (a : GenArticleElem) : Except PyErr (Option String) :=
  match src.link_selector with
  | none => .error .keyError
  | some lsel =>
    let link : Option String :=
      match lsel with
      | some s => if s != "" then a.linkBySel else a.hrefAttr
      | none => a.hrefAttr
    match link with
    | some l =>
      if l != "" && !pyStartsWith l "http" then
        match src.base_url with
        | none => .error .keyError
        | some b => .ok (some (b ++ l))
      else .ok (some l)
    | none => .ok none

/-- Date-string determination (lines 375-410): the listing page's date tag,
else — after extracting a truthy link and fetching the detail page — the
`[class*="date"]` text with "Published" removed and stripped; the resolved
link is remembered for the emission. -/
def genDateResolve (env : GenEnv) (src : SourceConfig) (a : GenArticleElem) :
    Except PyErr (Option (Option String × String)) :=
  match a.dateTag with
  | some ds => .ok (some (none, ds))
  | none =>
    match genExtractLink src a with
    | .error e => .error e
    | .ok link0 =>
      match link0 with
      | none => .ok none
      | some l =>
        if l = "" then .ok none
        else
          match env.detailFetch l with
          | .error _ => .ok none
          | .ok dp =>
            match dp.dateClass with
            | some t => .ok (some (some l, pyTrim (pyReplace t "Published")))
            | none => .ok none

/-- Date parse, second link extraction and append (lines 412-444): a record
is emitted iff the date parses and passes the cutoff; on the path where the
listing page supplied the date, the link is only now extracted, with no
null check before the append. -/
def genFinish (today : Date) (src : SourceConfig) (cutoff : Date)
    (srcName : String) (a : GenArticleElem) (title : String)
    (ld : Option String × String) : Except PyErr (Option Article) :=
  match dateutil_parse today ld.2 with
  | none => .ok none
  | some pd0 =>
    let pd := fixTz pd0
    let link2 : Except PyErr (Option String) :=
      match ld.1 with
      | some l => if l != "" then .ok (some l) else genExtractLink src a
      | none => genExtractLink src a
    match link2 with
    | .error e => .error e
    | .ok link2v =>
      if dateLe cutoff pd.date then
        .ok (some { source := srcName, title := title, date := ld.2,
                    url := link2v, timestamp := isoformat pd, resolvedDate := pd.date })
      else .ok none

/-- The per-article body of the generic branch (lines 365-444), returning
`.error` for an exception the surrounding per-article `try` will catch,
`.ok none` for a dropped candidate, `.ok (some _)` for an emission. -/
def processGenArticle (today : Date) (env : GenEnv) (src : SourceConfig) (cutoff : Date)
    (srcName : String) (a : GenArticleElem) : Except PyErr (Option Article) :=
  match src.title_selector with
  | none => .error .keyError
  | some _ =>
    match a.titleTag with
    | none => .ok none
    | some title =>
      match src.date_selector with
      | none => .error .keyError
      | some _ =>
        match genDateResolve env src a with
        | .error e => .error e
        | .ok none => .ok none
        | .ok (some ld) => genFinish today src cutoff srcName a title ld

/-- The generic branch for one source: the listing fetch error is caught
(only `requests.RequestException`, line 357) and the source skipped, but
`source['url']` and `source['article_selector']` are read outside any
`try`/`except` able to catch a `KeyError`, which therefore escapes; each
article's processing is wrapped in its own `try`/`except` (line 446). -/
def processGenericSource (today : Date) (env : GenEnv) (src : SourceConfig) (cutoff : Date)
    (srcName : String) : Except PyErr (List Article) :=
  match src.url with
  | none => .error .keyError
  | some _ =>
    match env.fetchG with
    | .error _ => .ok []
    | .ok elems =>
      match src.article_selector with
      | none => .error .keyError
      | some _ =>
        .ok (elems.filterMap fun a =>
          match processGenArticle today env src cutoff srcName a with
          | .error _ => none
          | .ok o => o)

/-! ## DiscoveryEngine: `check_for_new_articles` (scraper.py lines 258-450) -/

/-- The oracle inputs of one source, covering whichever branch its type
selects. -/
structure SourceEnv where
  anth : AnthEnv
  feed : FeedEnv
  uber : UberEnv
  gen : GenEnv

/-- The branch dispatch on `source.get('type')` (lines 273-352): the three
typed branches wrap their strategies in `try`/`except` and so always
succeed; anything else falls into the generic HTML branch. -/
def processSource (today : Date) (pwAvail : Bool) (cutoff : Date)
    (src : SourceConfig) (env : SourceEnv) (nm : String) : Except PyErr (List Article) :=
  if src.type_ == some "anthropic" then
    .ok (scrape_anthropic_engineering today env.anth src cutoff)
  else if src.type_ == some "playwright" then
    if !pwAvail then .ok []
    else .ok (scrape_with_playwright today pwAvail env.uber src cutoff)
  else if src.type_ == some "feed" then
    .ok (processFeedSource today env.feed src cutoff nm)
  else
    processGenericSource today env.gen src cutoff nm

/-- The `for source in SOURCES` loop.  `source['name']` is read (for the
log line 271) before dispatch, so a missing name raises out of the
function; the three typed branches catch all their strategy errors, while
the generic branch may propagate (see `processGenericSource`).  Articles
collected before an escaping exception are lost to the caller. -/
def checkLoop (today : Date) (pwAvail : Bool) (cutoff : Date) :
    List (SourceConfig × SourceEnv) → Except PyErr (List Article)
  | [] => .ok []
  | (src, env) :: rest =>
    match src.name with
    | none => .error .keyError
    | some nm =>
      match processSource today pwAvail cutoff src env nm with
      | .error e => .error e
      | .ok arts =>
        match checkLoop today pwAvail cutoff rest with
        | .error e => .error e
        | .ok more => .ok (arts ++ more)

/-- `check_for_new_articles(lookback_hours)`: compute the cutoff date from
the current UTC time, then run every configured source. -/
def check_for_new_articles (now : PyDateTime) (pwAvail : Bool)
    (sources : List (SourceConfig × SourceEnv)) (lookback_hours : Nat) :
    Except PyErr (List Article) :=
  checkLoop now.date pwAvail (cutoffOf now lookback_hours) sources

/-- The article list an invocation delivers (none, when an exception
escapes). -/
def emittedOf : Except PyErr (List Article) → List Article
  | .error _ => []
  | .ok l => l

/-! ## Helper lemmas -/

theorem mkData (s : String) : String.mk s.data = s := by
  cases s
  rfl

theorem dropWhile_dropWhile (p : Char → Bool) (l : List Char) :
    List.dropWhile p (List.dropWhile p l) = List.dropWhile p l := by
  induction l with
  | nil => rfl
  | cons c cs ih =>
    by_cases h : p c = true
    · simp [List.dropWhile_cons, h, ih]
    · simp [List.dropWhile_cons, h]

theorem dropWhile_headD (p : Char → Bool) (l : List Char) (d : Char) (hd : p d = false) :
    p ((List.dropWhile p l).headD d) = false := by
  induction l with
  | nil => simp only [List.dropWhile_nil, List.headD_nil]; exact hd
  | cons c cs ih =>
    by_cases h : p c = true
    · simp only [List.dropWhile_cons, h, if_true]; exact ih
    · simp only [List.dropWhile_cons, h, if_false, List.headD_cons]
      simpa using h

theorem mem_rstrip_of_mem {c : Char} {p : Char → Bool} {l : List Char}
    (h : c ∈ ((l.reverse.dropWhile p).reverse)) : c ∈ l := by
  rw [List.mem_reverse] at h
  have h2 := (List.dropWhile_sublist (l := l.reverse) p).subset h
  exact List.mem_reverse.mp h2

/-- Characters of the normal form all differ from `'?'`. -/
theorem norm_chars_ne_q (s : String) :
    ∀ c ∈ (rstripSlash (strBeforeQ s)).data, (c != '?') = true := by
  intro c hc
  have hc0 : c ∈ ((s.data.takeWhile (fun c => c != '?')).reverse.dropWhile
      (fun c => c == '/')).reverse := hc
  have hc' : c ∈ s.data.takeWhile (fun c => c != '?') :=
    mem_rstrip_of_mem (l := s.data.takeWhile (fun c => c != '?'))
      (p := fun c => c == '/') hc0
  exact List.mem_takeWhile_imp (p := fun c => c != '?') hc'

/-- The reversed normal form starts after the dropped slashes. -/
theorem norm_data_reverse (s : String) :
    (rstripSlash (strBeforeQ s)).data.reverse =
      (s.data.takeWhile (fun c => c != '?')).reverse.dropWhile (fun c => c == '/') := by
  show (((s.data.takeWhile (fun c => c != '?')).reverse.dropWhile
      (fun c => c == '/')).reverse).reverse = _
  rw [List.reverse_reverse]

/-- The query- and slash-stripping normal form is a fixed point of both
stripping steps. -/
theorem norm_fix (s : String) :
    normalize_url (some (rstripSlash (strBeforeQ s))) = rstripSlash (strBeforeQ s) := by
  set v := rstripSlash (strBeforeQ s) with hv
  by_cases hvE : v = ""
  · simp [normalize_url, hvE]
  · have hq : strBeforeQ v = v := by
      have : v.data.takeWhile (fun c => c != '?') = v.data :=
        List.takeWhile_eq_self_iff.mpr (by rw [hv]; exact norm_chars_ne_q s)
      unfold strBeforeQ
      rw [this, mkData]
    have hr : rstripSlash v = v := by
      unfold rstripSlash
      rw [hv, norm_data_reverse, dropWhile_dropWhile, ← norm_data_reverse,
        List.reverse_reverse, mkData]
    show normalize_url (some v) = v
    unfold normalize_url
    simp only [hvE, if_false]
    rw [hq, hr]

/-- C10 spec-side formula: the text of the claim, "the input with everything
from the first `'?'` removed and trailing `'/'` characters stripped; a falsy
input yields the empty string". -/
def normSpec (u : Option String) : String :=
  match u with
  | none => ""
  | some s => if s = "" then "" else rstripSlash (strBeforeQ s)

/-- C10: `normalize_url` is total and idempotent: it agrees everywhere with
the claim's formula, maps falsy inputs (`None`, `""`) to `""`, its output
contains no `'?'` and does not end in `'/'`, and applying it twice equals
applying it once. -/
theorem normalize_url_props :
    (∀ u, normalize_url u = normSpec u) ∧
    normalize_url none = "" ∧ normalize_url (some "") = "" ∧
    (∀ u, ((normalize_url u).data.any (fun c => c == '?')) = false) ∧
    (∀ u, (((normalize_url u).data.reverse.headD '?') == '/') = false) ∧
    (∀ u, normalize_url (some (normalize_url u)) = normalize_url u) := by
  have key : ∀ s : String, ¬s = "" → normalize_url (some s) = rstripSlash (strBeforeQ s) := by
    intro s hs
    simp [normalize_url, hs]
  refine ⟨fun u => rfl, rfl, rfl, ?_, ?_, ?_⟩
  · intro u
    match u with
    | none => rfl
    | some s =>
      by_cases hs : s = ""
      · rw [hs]; rfl
      · rw [key s hs, List.any_eq_false]
        intro c hc
        have := norm_chars_ne_q s c hc
        simpa using this
  · intro u
    match u with
    | none => rfl
    | some s =>
      by_cases hs : s = ""
      · rw [hs]; rfl
      · rw [key s hs, norm_data_reverse]
        exact dropWhile_headD (fun c => c == '/')
          ((s.data.takeWhile (fun c => c != '?')).reverse) '?' (by decide)
  · intro u
    match u with
    | none => rfl
    | some s =>
      by_cases hs : s = ""
      · rw [hs]; rfl
      · rw [key s hs, norm_fix]

/-! ## C9: title resolution priority -/

/-- The title-resolution rule as claimed: the first NON-EMPTY candidate, in
order og:title content, twitter:title content, the first h1's text, the
suffix-stripped title element text; `none` when all probes fail. -/
def titleClaimRule (p : TitlePage) : Option String :=
  [p.ogContent.bind id, p.twContent.bind id, p.h1Text, p.titleText.map stripTitleSeps].foldr
    (fun c acc =>
      match c with
      | some s => if s != "" then some s else acc
      | none => acc) none

/-- C9 counterexample: on a page whose `<h1>` exists but has empty text and
whose `<title>` is "Real Title", the code returns the empty string from the
h1 probe — not the first non-empty candidate, and not `None`. -/
theorem title_empty_h1_cex :
    fetch_title_from_page (.ok ⟨none, none, some "", some "Real Title"⟩) = some "" ∧
    titleClaimRule ⟨none, none, some "", some "Real Title"⟩ = some "Real Title" ∧
    (fetch_title_from_page (.ok ⟨none, none, some "", some "Real Title"⟩) ==
        titleClaimRule ⟨none, none, some "", some "Real Title"⟩) = false := by
  refine ⟨rfl, by decide, by decide⟩

/-- The resolution rule the code implements: the first PRESENT probe wins —
a meta element with truthy content (returned stripped), else the first h1's
text verbatim (possibly empty), else the suffix-stripped title text, else
`None`; `None` also on fetch failure. -/
def titleAmendedRule (resp : Except PyErr TitlePage) : Option String :=
  match resp with
  | .error _ => none
  | .ok p =>
    match metaVal p.ogContent, metaVal p.twContent, p.h1Text, p.titleText with
    | some c, _, _, _ => some (pyTrim c)
    | none, some c, _, _ => some (pyTrim c)
    | none, none, some t, _ => some t
    | none, none, none, some t => some (stripTitleSeps t)
    | none, none, none, none => none

/-- C9 amended: `fetch_title_from_page` returns the first present probe's
value in the claimed strict order (meta probes require truthy content and
are stripped; an existing h1 is taken verbatim even when empty instead of
falling through), and `None` when no probe matches or the fetch failed.  In
particular a truthy og:title content "A" beats any h1 text "B". -/
theorem title_priority_amended :
    (∀ resp, fetch_title_from_page resp = titleAmendedRule resp) ∧
    (∀ p a b, p.ogContent = some (some a) → ¬a = "" → p.h1Text = some b →
      fetch_title_from_page (.ok p) = some (pyTrim a)) := by
  constructor
  · intro resp
    match resp with
    | .error e => rfl
    | .ok p =>
      cases hog : metaVal p.ogContent with
      | some c => simp [fetch_title_from_page, titleAmendedRule, hog]
      | none =>
        cases htw : metaVal p.twContent with
        | some c => simp [fetch_title_from_page, titleAmendedRule, hog, htw]
        | none =>
          cases hh : p.h1Text with
          | some t => simp [fetch_title_from_page, titleAmendedRule, hog, htw, hh]
          | none =>
            cases ht : p.titleText with
            | some t => simp [fetch_title_from_page, titleAmendedRule, hog, htw, hh, ht]
            | none => simp [fetch_title_from_page, titleAmendedRule, hog, htw, hh, ht]
  · intro p a b hog ha _
    have hm : metaVal p.ogContent = some a := by
      rw [hog]
      simp [metaVal, ha]
    simp [fetch_title_from_page, hm]

/-- Witness for `title_priority_amended`: og:title "A" wins over h1 "B". -/
theorem title_priority_amended_witness :
    fetch_title_from_page (.ok ⟨some (some "A"), none, some "B", none⟩) = some (pyTrim "A") :=
  title_priority_amended.2 ⟨some (some "A"), none, some "B", none⟩ "A" "B" rfl (by decide) rfl

/-! ## C8: sitemap index construction -/

/-- One step of the sitemap fold as the claim describes it: entries whose
loc element is missing, whose loc text is falsy, or whose lastmod element is
missing, are omitted; the rest are indexed under the normalized location. -/
def sitemapStep (d : SiteDict) (e : UrlTag) : SiteDict :=
  match e.loc with
  | some locText =>
    (match e.lastmod with
     | some lm => if truthyS locText then dictInsert d (normalize_url locText) lm else d
     | none => d)
  | none => d

/-- The per-entry-tolerant index of the claim: a fold of `sitemapStep`. -/
def sitemapSpecFold (entries : List UrlTag) : SiteDict :=
  entries.foldl sitemapStep []

theorem sitemapLoop_ok (entries : List UrlTag) (d : SiteDict)
    (h : ∀ u ∈ entries, u.loc ≠ none) :
    sitemapLoop entries d = .ok (entries.foldl sitemapStep d) := by
  induction entries generalizing d with
  | nil => rfl
  | cons e rest ih =>
    have he : e.loc ≠ none := h e (by simp)
    have hrest : ∀ u ∈ rest, u.loc ≠ none := fun u hu => h u (by simp [hu])
    match hl : e.loc with
    | none => exact absurd hl he
    | some locText =>
      match hm : e.lastmod with
      | some lm =>
        by_cases ht : truthyS locText = true
        · simp [sitemapLoop, hl, hm, ht, sitemapStep, ih _ hrest]
        · simp only [Bool.not_eq_true] at ht
          simp [sitemapLoop, hl, hm, ht, sitemapStep, ih _ hrest]
      | none => simp [sitemapLoop, hl, hm, sitemapStep, ih _ hrest]

theorem sitemapLoop_err (u : UrlTag) (post : List UrlTag) (hu : u.loc = none) :
    ∀ pre d, sitemapLoop (pre ++ u :: post) d = .error .attrError := by
  intro pre
  induction pre with
  | nil => intro d; simp [sitemapLoop, hu]
  | cons p ps ih =>
    intro d
    match hl : p.loc with
    | none => simp [sitemapLoop, hl]
    | some locText =>
      match hm : p.lastmod with
      | some lm =>
        by_cases ht : truthyS locText = true
        · simp [sitemapLoop, hl, hm, ht, ih]
        · simp only [Bool.not_eq_true] at ht
          simp [sitemapLoop, hl, hm, ht, ih]
      | none => simp [sitemapLoop, hl, hm, ih]

/-- C8 counterexample: a sitemap with one `<url>` entry lacking its `<loc>`
element followed by a complete entry.  The claim says the first entry is
omitted and the second still indexed; the code instead aborts on the
`AttributeError` and returns the empty mapping. -/
theorem sitemap_missing_loc_cex :
    fetch_sitemap_dates (.ok
      [⟨none, some (some "2025-01-01")⟩,
       ⟨some (some "https://x/a"), some (some "2025-01-02")⟩]) = [] ∧
    sitemapSpecFold
      [⟨none, some (some "2025-01-01")⟩,
       ⟨some (some "https://x/a"), some (some "2025-01-02")⟩] =
      [("https://x/a", some "2025-01-02")] := by
  exact ⟨by decide, by decide⟩

/-- C8 amended: fetch/parse failure yields the empty mapping; when every
`<url>` entry has a `<loc>` element, entries with falsy loc text or with no
`<lastmod>` element are omitted while the remaining entries are indexed;
but a `<url>` entry lacking its `<loc>` element altogether raises
`AttributeError` into the catch-all, so the whole mapping collapses to
empty (no exception propagates). -/
theorem sitemap_index_amended :
    (∀ e, fetch_sitemap_dates (.error e) = []) ∧
    (∀ entries, (∀ u ∈ entries, u.loc ≠ none) →
      fetch_sitemap_dates (.ok entries) = sitemapSpecFold entries) ∧
    (∀ pre u post, u.loc = none → fetch_sitemap_dates (.ok (pre ++ u :: post)) = []) := by
  refine ⟨fun e => rfl, ?_, ?_⟩
  · intro entries h
    simp [fetch_sitemap_dates, sitemapLoop_ok entries [] h, sitemapSpecFold]
  · intro pre u post hu
    simp [fetch_sitemap_dates, sitemapLoop_err u post hu pre []]

/-- Witness for `sitemap_index_amended`: a concrete complete entry is
indexed, and a concrete loc-less entry empties the mapping. -/
theorem sitemap_index_amended_witness :
    fetch_sitemap_dates (.ok [⟨some (some "https://x/b/"), some (some "2025-03-04")⟩]) =
      sitemapSpecFold [⟨some (some "https://x/b/"), some (some "2025-03-04")⟩] ∧
    fetch_sitemap_dates (.ok [⟨some (some "https://x/c"), some (some "2025-05-06")⟩,
      ⟨none, none⟩]) = [] :=
  ⟨sitemap_index_amended.2.1 _ (by decide),
   sitemap_index_amended.2.2 [⟨some (some "https://x/c"), some (some "2025-05-06")⟩]
     ⟨none, none⟩ [] rfl⟩

/-! ## C6: feed-entry date resolution -/

/-- C6: a feed entry's date comes from its native `published_parsed` /
`updated_parsed` timestamp (as UTC) when present; otherwise from the
sitemap index under the entry's normalized link, when that maps to a
lastmod string that `dateutil` parses; and an entry whose date resolves to
nothing contributes no article. -/
theorem feed_entry_date_chain :
    (∀ (today : Date) (sd : Option SiteDict) (entry : FeedEntry) (ts : TimeStruct),
       entry.published_parsed.orElse (fun _ => entry.updated_parsed) = some ts →
       feedEntryDate today sd entry = some (tsToDT ts)) ∧
    (∀ (today : Date) (d : SiteDict) (entry : FeedEntry) (s : String) (pd : PyDateTime),
       entry.published_parsed = none → entry.updated_parsed = none →
       dictFind d (normalize_url (some entry.link)) = some (some s) →
       dateutil_parse today s = some pd →
       feedEntryDate today (some d) entry = some (fixTz pd)) ∧
    (∀ (today : Date) (sd : Option SiteDict) (cutoff : Date) (srcName : String)
       (entry : FeedEntry),
       feedEntryDate today sd entry = none →
       processFeedEntry today sd cutoff srcName entry = none) := by
  refine ⟨?_, ?_, ?_⟩
  · intro today sd entry ts h
    simp [feedEntryDate, h]
  · intro today d entry s pd h1 h2 h3 h4
    match d with
    | [] => simp [dictFind] at h3
    | (k, v) :: rest =>
      simp [feedEntryDate, h1, h2, h3, h4, List.isEmpty]
  · intro today sd cutoff srcName entry h
    simp [processFeedEntry, h]

/-- Witness for `feed_entry_date_chain`: a native timestamp becomes the
date; with no native timestamp, the sitemap value "2025-01-15" resolves to
January 15, 2025. -/
theorem feed_entry_date_chain_witness :
    feedEntryDate ⟨2026, 1, 1⟩ none ⟨"T", "http://g/a", some ⟨2025, 6, 7, 1, 2, 3⟩, none⟩ =
      some (tsToDT ⟨2025, 6, 7, 1, 2, 3⟩) ∧
    feedEntryDate ⟨2026, 1, 1⟩ (some [("http://g/a", some "2025-01-15")])
        ⟨"T", "http://g/a/", none, none⟩ =
      some (fixTz ⟨⟨2025, 1, 15⟩, 0, 0, 0, false⟩) ∧
    processFeedEntry ⟨2026, 1, 1⟩ none ⟨2024, 1, 1⟩ "G" ⟨"T", "http://g/b", none, none⟩ = none :=
  ⟨feed_entry_date_chain.1 ⟨2026, 1, 1⟩ none _ ⟨2025, 6, 7, 1, 2, 3⟩ rfl,
   feed_entry_date_chain.2.1 ⟨2026, 1, 1⟩ [("http://g/a", some "2025-01-15")]
     ⟨"T", "http://g/a/", none, none⟩ "2025-01-15" ⟨⟨2025, 1, 15⟩, 0, 0, 0, false⟩
     rfl rfl (by decide) (by decide),
   feed_entry_date_chain.2.2 ⟨2026, 1, 1⟩ none ⟨2024, 1, 1⟩ "G"
     ⟨"T", "http://g/b", none, none⟩ rfl⟩

/-! ## C7: Uber date parsing with year injection -/

theorem digitChar_isDigit (k : Nat) : (digitChar k).isDigit = true := by
  unfold digitChar
  split <;> decide

theorem digitChar_val {k : Nat} (h : k < 10) : (digitChar k).toNat - 48 = k := by
  interval_cases k <;> decide

theorem natDigitsRev_digits (n : Nat) : ∀ c ∈ natDigitsRev n, c.isDigit = true := by
  induction n using Nat.strong_induction_on with
  | _ n ih =>
    intro c hc
    rw [natDigitsRev_eq] at hc
    by_cases h : n < 10
    · simp only [h, if_true, List.mem_singleton] at hc
      rw [hc]; exact digitChar_isDigit n
    · simp only [h, if_false, List.mem_cons] at hc
      rcases hc with hc | hc
      · rw [hc]; exact digitChar_isDigit (n % 10)
      · exact ih (n / 10) (Nat.div_lt_self (by omega) (by norm_num)) c hc

theorem natRepr_digits (n : Nat) : ∀ c ∈ natRepr n, c.isDigit = true := by
  intro c hc
  exact natDigitsRev_digits n c (List.mem_reverse.mp hc)

theorem natDigitsRev_ne_nil (n : Nat) : natDigitsRev n ≠ [] := by
  rw [natDigitsRev_eq]
  split <;> simp

theorem natRepr_ne_nil (n : Nat) : natRepr n ≠ [] := by
  unfold natRepr
  simpa using natDigitsRev_ne_nil n

theorem natDigitsRev_foldr (n : Nat) :
    (natDigitsRev n).foldr (fun c acc => 10 * acc + (c.toNat - 48)) 0 = n := by
  induction n using Nat.strong_induction_on with
  | _ n ih =>
    rw [natDigitsRev_eq]
    by_cases h : n < 10
    · simp only [h, if_true, List.foldr_cons, List.foldr_nil]
      rw [digitChar_val h]
      omega
    · simp only [h, if_false, List.foldr_cons]
      rw [ih (n / 10) (Nat.div_lt_self (by omega) (by norm_num))]
      rw [digitChar_val (Nat.mod_lt n (by norm_num))]
      omega

/-- Python `int` round-trips the decimal rendering. -/
theorem tokToNat_natRepr (n : Nat) : tokToNat (natRepr n) = some n := by
  unfold tokToNat
  have h1 : (natRepr n).isEmpty = false := by
    rw [List.isEmpty_eq_false_iff_exists_mem]
    rcases List.exists_mem_of_ne_nil _ (natRepr_ne_nil n) with ⟨c, hc⟩
    exact ⟨c, hc⟩
  have h2 : (natRepr n).all Char.isDigit = true := by
    rw [List.all_eq_true]
    exact natRepr_digits n
  rw [h1, h2]
  simp only [Bool.not_false, Bool.true_and, if_true]
  unfold natRepr
  rw [List.foldl_reverse, natDigitsRev_foldr]

theorem splitChar_no_sep (sep : Char) (l : List Char) (h : ∀ c ∈ l, ¬c = sep) :
    splitChar sep l = [l] := by
  induction l with
  | nil => rfl
  | cons c cs ih =>
    have hc : ¬c = sep := h c (by simp)
    rw [splitChar]
    simp only [hc, if_neg, if_false]
    rw [ih (fun x hx => h x (by simp [hx]))]

theorem splitChar_append_sep (sep : Char) (l1 l2 : List Char) (h : ∀ c ∈ l1, ¬c = sep) :
    splitChar sep (l1 ++ sep :: l2) = l1 :: splitChar sep l2 := by
  induction l1 with
  | nil => simp [splitChar]
  | cons c cs ih =>
    have hc : ¬c = sep := h c (by simp)
    rw [List.cons_append, splitChar]
    simp only [hc, if_neg, if_false]
    rw [ih (fun x hx => h x (by simp [hx]))]

theorem map_id_on (f : Char → Char) (l : List Char) (h : ∀ c ∈ l, f c = c) :
    l.map f = l := by
  induction l with
  | nil => rfl
  | cons c cs ih =>
    rw [List.map_cons, h c (by simp), ih (fun x hx => h x (by simp [hx]))]

/-- C7: parsing the year-less token "6 January / Global" in any (4-digit)
current year Y strips the region suffix after the separator, injects Y
before parsing, and yields the UTC-anchored date January 6 of year Y. -/
theorem uber_year_injection (today : Date) (h1 : 1000 ≤ today.year) (h2 : today.year ≤ 9999) :
    parse_uber_date today (some "6 January / Global") =
      some ⟨⟨today.year, 1, 6⟩, 0, 0, 0, true⟩ := by
  have hdig := natRepr_digits today.year
  have hnotsp : ∀ c ∈ natRepr today.year, ¬c = ' ' := by
    intro c hc h
    subst h
    exact absurd (hdig _ hc) (by decide)
  have hnotcm : ∀ c ∈ natRepr today.year, (fun c => if c == ',' then ' ' else c) c = c := by
    intro c hc
    have h : (c == ',') = false := by
      rcases Bool.eq_false_or_eq_true (c == ',') with h | h
      · exfalso
        have hcc : c = ',' := by simpa using h
        subst hcc
        exact absurd (hdig _ hc) (by decide)
      · exact h
    simp [h]
  have hysE : (natRepr today.year).isEmpty = false := by
    cases h : natRepr today.year with
    | nil => exact absurd h (natRepr_ne_nil today.year)
    | cons a as => rfl
  have htrim : trimChars ((splitChar '/' ("6 January / Global").data).headD []) =
      "6 January".data := by decide
  have hrun : hasRun4 ("6 January".data) = false := by decide
  have hsplit : splitChar ' ' ("6 January".data ++ ' ' :: natRepr today.year) =
      [['6'], "January".data, natRepr today.year] := by
    have e1 : "6 January".data ++ ' ' :: natRepr today.year =
        ['6'] ++ ' ' :: ("January".data ++ ' ' :: natRepr today.year) := rfl
    rw [e1, splitChar_append_sep ' ' ['6'] _ (by decide),
      splitChar_append_sep ' ' ("January".data) _ (by decide),
      splitChar_no_sep ' ' (natRepr today.year) hnotsp]
  have hmapall : ("6 January".data ++ ' ' :: natRepr today.year).map
      (fun c => if c == ',' then ' ' else c) = "6 January".data ++ ' ' :: natRepr today.year := by
    apply map_id_on
    intro c hc
    rw [List.mem_append] at hc
    rcases hc with hc | hc
    · exact (by decide : ∀ x ∈ "6 January".data,
        (fun c => if c == ',' then ' ' else c) x = x) c hc
    · rw [List.mem_cons] at hc
      rcases hc with rfl | hc
      · decide
      · exact hnotcm c hc
  have htok : dateTokens ("6 January".data ++ ' ' :: natRepr today.year) =
      [['6'], "January".data, natRepr today.year] := by
    unfold dateTokens
    rw [hmapall, hsplit]
    simp [List.filter, hysE]
  have hmk : mkParsedDate today.year 1 6 = some ⟨⟨today.year, 1, 6⟩, 0, 0, 0, false⟩ := by
    unfold mkParsedDate
    rw [if_pos]
    exact ⟨h1, h2, by norm_num, by norm_num, by norm_num, by norm_num [daysInMonth]⟩
  have hm : monthIndexOf "January".data = some 1 := by decide
  have ha : tokToNat ['6'] = some 6 := by decide
  have hmain : dateutilChars today ("6 January".data ++ ' ' :: natRepr today.year) =
      some ⟨⟨today.year, 1, 6⟩, 0, 0, 0, false⟩ := by
    unfold dateutilChars
    rw [htok]
    simp only [hm, ha, tokToNat_natRepr, hmk]
  calc parse_uber_date today (some "6 January / Global")
      = (dateutilChars today ("6 January".data ++ ' ' :: natRepr today.year)).map fixTz := by
        unfold parse_uber_date
        simp only [htrim, hrun]
        rfl
    _ = some ⟨⟨today.year, 1, 6⟩, 0, 0, 0, true⟩ := by
        rw [hmain]
        simp [fixTz]


/-- Witness for `uber_year_injection` at the year 2026. -/
theorem uber_year_injection_witness :
    parse_uber_date ⟨2026, 5, 4⟩ (some "6 January / Global") =
      some ⟨⟨2026, 1, 6⟩, 0, 0, 0, true⟩ :=
  uber_year_injection ⟨2026, 5, 4⟩ (by norm_num) (by norm_num)


/-! ## Per-strategy soundness: cutoff filtering, field presence, dedup -/

theorem anthEmit_sound {cutoff : Date} {srcName clean_url : String}
    {title : Option String} {pub : Option PyDateTime} {dstr : Option String} {a : Article}
    (h : anthEmit cutoff srcName clean_url title pub dstr = some a) :
    dateLe cutoff a.resolvedDate = true ∧ a.url = some clean_url ∧ ¬a.title = "" ∧
      a.source = srcName := by
  match title, pub with
  | none, _ => simp [anthEmit] at h
  | some t, none =>
    by_cases ht : t = "" <;> simp [anthEmit, ht] at h
  | some t, some pd =>
    by_cases ht : t = ""
    · simp [anthEmit, ht] at h
    · by_cases hd : dateLe cutoff pd.date = true
      · simp only [anthEmit, ht, if_false, hd, if_true, Option.some_inj] at h
        refine ⟨?_, ?_, ?_, ?_⟩ <;> simp [← h, hd, ht]
      · simp [anthEmit, ht, hd] at h

theorem anthLinkBody_sound {today : Date} {env : AnthEnv} {cutoff : Date}
    {srcName clean_url : String} {link : AnthLinkElem} {a : Article}
    (h : anthLinkBody today env cutoff srcName clean_url link = some a) :
    dateLe cutoff a.resolvedDate = true ∧ a.url = some clean_url ∧ ¬a.title = "" ∧
      a.source = srcName := by
  unfold anthLinkBody at h
  exact anthEmit_sound h

theorem anthLinks_inv (today : Date) (env : AnthEnv) (cutoff : Date) (srcName baseUrl : String) :
    ∀ (links : List AnthLinkElem) (seen : List String),
      (∀ a ∈ (anthLinks today env cutoff srcName baseUrl links seen).1,
          dateLe cutoff a.resolvedDate = true ∧ ¬a.title = "" ∧ a.source = srcName ∧
          ∃ u, a.url = some u ∧ normalize_url (some u) = u ∧ ¬u ∈ seen ∧
            u ∈ (anthLinks today env cutoff srcName baseUrl links seen).2) ∧
      (∀ s ∈ seen, s ∈ (anthLinks today env cutoff srcName baseUrl links seen).2) ∧
      List.Pairwise (fun x y => x.url ≠ y.url)
        (anthLinks today env cutoff srcName baseUrl links seen).1 := by
  intro links
  induction links with
  | nil =>
    intro seen
    refine ⟨?_, ?_, ?_⟩ <;> simp [anthLinks]
  | cons link rest ih =>
    intro seen
    by_cases hskip : rstripSlash link.href ∈ ["/engineering", "/engineering/"]
    · have he : anthLinks today env cutoff srcName baseUrl (link :: rest) seen =
          anthLinks today env cutoff srcName baseUrl rest seen := by
        rw [anthLinks]
        simp only [hskip, if_true]
      rw [he]
      exact ih seen
    · set cu := rstripSlash (strBeforeQ
        (if pyStartsWith link.href "/" = true then baseUrl ++ link.href else link.href)) with hcu
      by_cases hdup : cu ∈ seen
      · have he : anthLinks today env cutoff srcName baseUrl (link :: rest) seen =
            anthLinks today env cutoff srcName baseUrl rest seen := by
          rw [anthLinks]
          simp only [hskip, if_false, ← hcu, hdup, if_true]
        rw [he]
        exact ih seen
      · cases hbody : anthLinkBody today env cutoff srcName cu link with
        | none =>
          have he : anthLinks today env cutoff srcName baseUrl (link :: rest) seen =
              anthLinks today env cutoff srcName baseUrl rest (cu :: seen) := by
            rw [anthLinks]
            simp only [hskip, if_false, ← hcu, hdup, hbody]
          rw [he]
          obtain ⟨ih1, ih2, ih3⟩ := ih (cu :: seen)
          refine ⟨?_, ?_, ih3⟩
          · intro a ha
            obtain ⟨hda, hta, hsa, u, hu, hnu, hns, hmem⟩ := ih1 a ha
            exact ⟨hda, hta, hsa, u, hu, hnu, fun hs => hns (by simp [hs]), hmem⟩
          · intro s hs
            exact ih2 s (by simp [hs])
        | some a0 =>
          have he : anthLinks today env cutoff srcName baseUrl (link :: rest) seen =
              (a0 :: (anthLinks today env cutoff srcName baseUrl rest (cu :: seen)).1,
               (anthLinks today env cutoff srcName baseUrl rest (cu :: seen)).2) := by
            rw [anthLinks]
            simp only [hskip, if_false, ← hcu, hdup, hbody]
          rw [he]
          obtain ⟨ih1, ih2, ih3⟩ := ih (cu :: seen)
          obtain ⟨hda0, hu0, ht0, hs0⟩ := anthLinkBody_sound hbody
          have hnormcu : normalize_url (some cu) = cu := by
            rw [hcu]
            exact norm_fix _
          refine ⟨?_, ?_, ?_⟩
          · intro a ha
            rcases List.mem_cons.mp ha with rfl | ha
            · exact ⟨hda0, ht0, hs0, cu, hu0, hnormcu, hdup, ih2 cu (by simp)⟩
            · obtain ⟨hda, hta, hsa, u, hu, hnu, hns, hmem⟩ := ih1 a ha
              exact ⟨hda, hta, hsa, u, hu, hnu, fun hs => hns (by simp [hs]), hmem⟩
          · intro s hs
            exact ih2 s (by simp [hs])
          · rw [List.pairwise_cons]
            refine ⟨?_, ih3⟩
            intro a' ha'
            obtain ⟨_, _, _, u', hu', _, hns', _⟩ := ih1 a' ha'
            rw [hu0, hu']
            intro hequ
            have : u' = cu := by
              have := Option.some.inj hequ
              exact this.symm
            exact hns' (by simp [this])

theorem anthArticles_inv (today : Date) (env : AnthEnv) (cutoff : Date) (srcName baseUrl : String) :
    ∀ (elems : List AnthArticleElem) (seen : List String),
      (∀ a ∈ anthArticles today env cutoff srcName baseUrl elems seen,
          dateLe cutoff a.resolvedDate = true ∧ ¬a.title = "" ∧ a.source = srcName ∧
          ∃ u, a.url = some u ∧ normalize_url (some u) = u ∧ ¬u ∈ seen) ∧
      List.Pairwise (fun x y => x.url ≠ y.url)
        (anthArticles today env cutoff srcName baseUrl elems seen) := by
  intro elems
  induction elems with
  | nil =>
    intro seen
    constructor <;> simp [anthArticles]
  | cons ae rest ih =>
    intro seen
    obtain ⟨h1, h2, h3⟩ := anthLinks_inv today env cutoff srcName baseUrl ae.links seen
    obtain ⟨ihm, ihp⟩ := ih ((anthLinks today env cutoff srcName baseUrl ae.links seen).2)
    have he : anthArticles today env cutoff srcName baseUrl (ae :: rest) seen =
        (anthLinks today env cutoff srcName baseUrl ae.links seen).1 ++
          anthArticles today env cutoff srcName baseUrl rest
            (anthLinks today env cutoff srcName baseUrl ae.links seen).2 := rfl
    rw [he]
    constructor
    · intro a ha
      rcases List.mem_append.mp ha with ha | ha
      · obtain ⟨hd, ht, hs, u, hu, hn, hns, _⟩ := h1 a ha
        exact ⟨hd, ht, hs, u, hu, hn, hns⟩
      · obtain ⟨hd, ht, hs, u, hu, hn, hns⟩ := ihm a ha
        exact ⟨hd, ht, hs, u, hu, hn, fun hsn => hns (h2 u hsn)⟩
    · rw [List.pairwise_append]
      refine ⟨h3, ihp, ?_⟩
      intro x hx y hy
      obtain ⟨_, _, _, u, hu, _, _, hmem⟩ := h1 x hx
      obtain ⟨_, _, _, u', hu', _, hns'⟩ := ihm y hy
      rw [hu, hu']
      intro he2
      have heq : u' = u := (Option.some.inj he2).symm
      exact hns' (heq ▸ hmem)

theorem scrape_anthropic_sound (today : Date) (env : AnthEnv) (src : SourceConfig) (cutoff : Date) :
    (∀ a ∈ scrape_anthropic_engineering today env src cutoff,
        dateLe cutoff a.resolvedDate = true ∧ ¬a.title = "" ∧ ¬a.url = none ∧
          a.source = src.name.getD "Anthropic Engineering") ∧
    List.Pairwise (fun x y => normalize_url x.url ≠ normalize_url y.url)
      (scrape_anthropic_engineering today env src cutoff) := by
  cases hp : env.page with
  | error e =>
    have he : scrape_anthropic_engineering today env src cutoff = [] := by
      unfold scrape_anthropic_engineering
      rw [hp]
    rw [he]
    constructor <;> simp
  | ok elems =>
    have he : scrape_anthropic_engineering today env src cutoff =
        anthArticles today env cutoff (src.name.getD "Anthropic Engineering")
          (src.base_url.getD "https://www.anthropic.com") elems [] := by
      unfold scrape_anthropic_engineering
      rw [hp]
    rw [he]
    obtain ⟨hm, hp2⟩ := anthArticles_inv today env cutoff
      (src.name.getD "Anthropic Engineering") (src.base_url.getD "https://www.anthropic.com")
      elems []
    constructor
    · intro a ha
      obtain ⟨hd, ht, hs, u, hu, _, _⟩ := hm a ha
      exact ⟨hd, ht, by simp [hu], hs⟩
    · refine List.Pairwise.imp_of_mem ?_ hp2
      intro x y hx hy hne
      obtain ⟨_, _, _, u, hu, hn, _⟩ := hm x hx
      obtain ⟨_, _, _, u', hu', hn', _⟩ := hm y hy
      rw [hu, hu', hn, hn']
      intro heq
      exact hne (by rw [hu, hu', heq])

theorem uberLoop_inv (today cutoff : Date) (srcName baseUrl : String) :
    ∀ (cards : List UberCard) (seen : List String),
      (∀ a ∈ uberLoop today cutoff srcName baseUrl cards seen,
          dateLe cutoff a.resolvedDate = true ∧ ¬a.title = "" ∧ a.source = srcName ∧
          ∃ u, a.url = some u ∧ ¬u ∈ seen) ∧
      List.Pairwise (fun x y => x.url ≠ y.url)
        (uberLoop today cutoff srcName baseUrl cards seen) := by
  intro cards
  induction cards with
  | nil =>
    intro seen
    constructor <;> simp [uberLoop]
  | cons card rest ih =>
    intro seen
    have wk : ∀ cu : String,
        ((∀ a ∈ uberLoop today cutoff srcName baseUrl rest (cu :: seen),
            dateLe cutoff a.resolvedDate = true ∧ ¬a.title = "" ∧ a.source = srcName ∧
            ∃ u, a.url = some u ∧ ¬u ∈ cu :: seen) ∧
         List.Pairwise (fun x y => x.url ≠ y.url)
           (uberLoop today cutoff srcName baseUrl rest (cu :: seen))) →
        ((∀ a ∈ uberLoop today cutoff srcName baseUrl rest (cu :: seen),
            dateLe cutoff a.resolvedDate = true ∧ ¬a.title = "" ∧ a.source = srcName ∧
            ∃ u, a.url = some u ∧ ¬u ∈ seen) ∧
         List.Pairwise (fun x y => x.url ≠ y.url)
           (uberLoop today cutoff srcName baseUrl rest (cu :: seen))) := by
      intro cu h
      refine ⟨?_, h.2⟩
      intro a ha
      obtain ⟨hd, ht, hs, u, hu, hn⟩ := h.1 a ha
      exact ⟨hd, ht, hs, u, hu, fun hx => hn (by simp [hx])⟩
    cases hhref : card.href with
    | none =>
      have he : uberLoop today cutoff srcName baseUrl (card :: rest) seen =
          uberLoop today cutoff srcName baseUrl rest seen := by
        rw [uberLoop, hhref]
      rw [he]
      exact ih seen
    | some href =>
      by_cases h1 : href = ""
      · have he : uberLoop today cutoff srcName baseUrl (card :: rest) seen =
            uberLoop today cutoff srcName baseUrl rest seen := by
          rw [uberLoop, hhref]
          simp [h1, if_true, if_pos rfl]
        rw [he]
        exact ih seen
      · by_cases h2 : (pyContains href "/blog/engineering/" && pyEndsWith href "engineering/") = true
        · have he : uberLoop today cutoff srcName baseUrl (card :: rest) seen =
              uberLoop today cutoff srcName baseUrl rest seen := by
            rw [uberLoop, hhref]
            simp [h1, if_false, h2, if_true]
          rw [he]
          exact ih seen
        · by_cases h3 : rstripSlash href = "/blog/engineering"
          · have he : uberLoop today cutoff srcName baseUrl (card :: rest) seen =
                uberLoop today cutoff srcName baseUrl rest seen := by
              rw [uberLoop, hhref]
              simp [h1, if_false, h2, h3, if_true]
            rw [he]
            exact ih seen
          · set cu := strBeforeQ (if pyStartsWith href "/" = true then baseUrl ++ href else href)
              with hcu
            by_cases h4 : cu ∈ seen
            · have he : uberLoop today cutoff srcName baseUrl (card :: rest) seen =
                  uberLoop today cutoff srcName baseUrl rest seen := by
                rw [uberLoop, hhref]
                simp [h1, if_false, h2, h3, ← hcu, h4, if_true]
              rw [he]
              exact ih seen
            · cases htt : card.titleText with
              | none =>
                have he : uberLoop today cutoff srcName baseUrl (card :: rest) seen =
                    uberLoop today cutoff srcName baseUrl rest (cu :: seen) := by
                  rw [uberLoop, hhref]
                  simp [h1, if_false, h2, h3, ← hcu, h4, htt]
                rw [he]
                exact wk cu (ih (cu :: seen))
              | some t0 =>
                by_cases h5 : pyTrim t0 = ""
                · have he : uberLoop today cutoff srcName baseUrl (card :: rest) seen =
                      uberLoop today cutoff srcName baseUrl rest (cu :: seen) := by
                    rw [uberLoop, hhref]
                    simp [h1, if_false, h2, h3, ← hcu, h4, htt, h5, if_true]
                  rw [he]
                  exact wk cu (ih (cu :: seen))
                · cases hdm : card.dateMatch with
                  | none =>
                    have he : uberLoop today cutoff srcName baseUrl (card :: rest) seen =
                        uberLoop today cutoff srcName baseUrl rest (cu :: seen) := by
                      rw [uberLoop, hhref]
                      simp [h1, if_false, h2, h3, ← hcu, h4, htt, h5, hdm]
                    rw [he]
                    exact wk cu (ih (cu :: seen))
                  | some ds =>
                    cases hpu : parse_uber_date today (some ds) with
                    | none =>
                      have he : uberLoop today cutoff srcName baseUrl (card :: rest) seen =
                          uberLoop today cutoff srcName baseUrl rest (cu :: seen) := by
                        rw [uberLoop, hhref]
                        simp [h1, if_false, h2, h3, ← hcu, h4, htt, h5, hdm, hpu]
                      rw [he]
                      exact wk cu (ih (cu :: seen))
                    | some pd =>
                      by_cases h6 : dateLe cutoff pd.date = true
                      · have he : uberLoop today cutoff srcName baseUrl (card :: rest) seen =
                            { source := srcName, title := pyTrim t0, date := fmtYMD pd.date,
                              url := some cu, timestamp := isoformat pd,
                              resolvedDate := pd.date } ::
                              uberLoop today cutoff srcName baseUrl rest (cu :: seen) := by
                          rw [uberLoop, hhref]
                          simp [h1, if_false, h2, h3, ← hcu, h4, htt, h5, hdm, hpu, h6,
                            if_true]
                        rw [he]
                        obtain ⟨ih1, ih2⟩ := ih (cu :: seen)
                        constructor
                        · intro a ha
                          rcases List.mem_cons.mp ha with rfl | ha
                          · exact ⟨h6, h5, rfl, cu, rfl, h4⟩
                          · obtain ⟨hd, ht, hs, u, hu, hn⟩ := ih1 a ha
                            exact ⟨hd, ht, hs, u, hu, fun hx => hn (by simp [hx])⟩
                        · rw [List.pairwise_cons]
                          refine ⟨?_, ih2⟩
                          intro a' ha'
                          obtain ⟨_, _, _, u', hu', hn'⟩ := ih1 a' ha'
                          simp only [hu']
                          intro heq
                          have : u' = cu := (Option.some.inj heq).symm
                          exact hn' (by simp [this])
                      · have he : uberLoop today cutoff srcName baseUrl (card :: rest) seen =
                            uberLoop today cutoff srcName baseUrl rest (cu :: seen) := by
                          rw [uberLoop, hhref]
                          simp [h1, if_false, h2, h3, ← hcu, h4, htt, h5, hdm, hpu, h6,
                            if_false]
                        rw [he]
                        exact wk cu (ih (cu :: seen))

theorem scrape_uber_sound (today : Date) (pwAvail : Bool) (env : UberEnv) (src : SourceConfig)
    (cutoff : Date) :
    (∀ a ∈ scrape_uber_engineering today pwAvail env src cutoff,
        dateLe cutoff a.resolvedDate = true ∧ ¬a.title = "" ∧ ¬a.url = none) ∧
    List.Pairwise (fun x y => x.url ≠ y.url)
      (scrape_uber_engineering today pwAvail env src cutoff) := by
  cases pwAvail with
  | false => constructor <;> simp [scrape_uber_engineering]
  | true =>
    cases hl : env.launched with
    | error e =>
      have he : scrape_uber_engineering today true env src cutoff = [] := by
        unfold scrape_uber_engineering
        simp [hl]
      rw [he]
      constructor <;> simp
    | ok cards =>
      have he : scrape_uber_engineering today true env src cutoff =
          uberLoop today cutoff (src.name.getD "Uber Engineering")
            (src.base_url.getD "https://www.uber.com") cards [] := by
        unfold scrape_uber_engineering
        simp [hl]
      rw [he]
      obtain ⟨h1, h2⟩ := uberLoop_inv today cutoff (src.name.getD "Uber Engineering")
        (src.base_url.getD "https://www.uber.com") cards []
      refine ⟨?_, h2⟩
      intro a ha
      obtain ⟨hd, ht, _, u, hu, _⟩ := h1 a ha
      exact ⟨hd, ht, by simp [hu]⟩

theorem scrape_with_playwright_sound (today : Date) (pwAvail : Bool) (env : UberEnv)
    (src : SourceConfig) (cutoff : Date) :
    ∀ a ∈ scrape_with_playwright today pwAvail env src cutoff,
      dateLe cutoff a.resolvedDate = true ∧ ¬a.title = "" ∧ ¬a.url = none := by
  unfold scrape_with_playwright
  by_cases hn : pyContains (pyLower (src.name.getD "")) "uber" = true
  · simp only [hn, if_true]
    exact (scrape_uber_sound today pwAvail env src cutoff).1
  · simp [hn]

theorem processFeedEntry_sound {today : Date} {sd : Option SiteDict} {cutoff : Date}
    {srcName : String} {entry : FeedEntry} {a : Article}
    (h : processFeedEntry today sd cutoff srcName entry = some a) :
    dateLe cutoff a.resolvedDate = true ∧ a.url = some entry.link ∧ a.source = srcName := by
  unfold processFeedEntry at h
  cases hfe : feedEntryDate today sd entry with
  | none => rw [hfe] at h; simp at h
  | some pd =>
    rw [hfe] at h
    by_cases hd : dateLe cutoff pd.date = true
    · simp only [hd, if_true, Option.some.injEq] at h
      subst h
      exact ⟨hd, rfl, rfl⟩
    · simp [hd] at h

theorem processFeedSource_sound (today : Date) (env : FeedEnv) (src : SourceConfig)
    (cutoff : Date) (srcName : String) :
    ∀ a ∈ processFeedSource today env src cutoff srcName,
      dateLe cutoff a.resolvedDate = true ∧ ¬a.url = none ∧ a.source = srcName := by
  intro a ha
  unfold processFeedSource at ha
  cases hu : src.url with
  | none => rw [hu] at ha; simp at ha
  | some u =>
    rw [hu] at ha
    obtain ⟨entry, _, he⟩ := List.mem_filterMap.mp ha
    obtain ⟨hd, hurl, hs⟩ := processFeedEntry_sound he
    exact ⟨hd, by simp [hurl], hs⟩

theorem genFinish_sound {today : Date} {src : SourceConfig} {cutoff : Date}
    {srcName : String} {a : GenArticleElem} {title : String} {ld : Option String × String}
    {art : Article} (h : genFinish today src cutoff srcName a title ld = .ok (some art)) :
    dateLe cutoff art.resolvedDate = true ∧ art.source = srcName ∧ art.title = title := by
  unfold genFinish at h
  cases hp : dateutil_parse today ld.2 with
  | none => rw [hp] at h; simp at h
  | some pd0 =>
    rw [hp] at h
    cases hl2 : (match ld.1 with
        | some l => if l != "" then Except.ok (some l) else genExtractLink src a
        | none => genExtractLink src a) with
    | error e =>
      rw [hl2] at h
      simp at h
    | ok link2v =>
      rw [hl2] at h
      by_cases hd : dateLe cutoff (fixTz pd0).date = true
      · simp only [hd, if_true, Except.ok.injEq, Option.some.injEq] at h
        subst h
        exact ⟨hd, rfl, rfl⟩
      · simp [hd] at h

theorem processGenArticle_sound {today : Date} {env : GenEnv} {src : SourceConfig}
    {cutoff : Date} {srcName : String} {a : GenArticleElem} {art : Article}
    (h : processGenArticle today env src cutoff srcName a = .ok (some art)) :
    dateLe cutoff art.resolvedDate = true ∧ art.source = srcName := by
  unfold processGenArticle at h
  cases hts : src.title_selector with
  | none => rw [hts] at h; simp at h
  | some ts =>
    rw [hts] at h
    cases htt : a.titleTag with
    | none => rw [htt] at h; simp at h
    | some title =>
      rw [htt] at h
      cases hds : src.date_selector with
      | none => rw [hds] at h; simp at h
      | some dsel =>
        rw [hds] at h
        cases hdr : genDateResolve env src a with
        | error e => rw [hdr] at h; simp at h
        | ok o =>
          rw [hdr] at h
          cases o with
          | none => simp at h
          | some ld =>
            obtain ⟨hd, hs, _⟩ := genFinish_sound h
            exact ⟨hd, hs⟩

theorem processGenericSource_sound (today : Date) (env : GenEnv) (src : SourceConfig)
    (cutoff : Date) (srcName : String) :
    ∀ a ∈ emittedOf (processGenericSource today env src cutoff srcName),
      dateLe cutoff a.resolvedDate = true ∧ a.source = srcName := by
  intro a ha
  unfold processGenericSource at ha
  cases hu : src.url with
  | none => rw [hu] at ha; simp [emittedOf] at ha
  | some u =>
    rw [hu] at ha
    cases hf : env.fetchG with
    | error e => rw [hf] at ha; simp [emittedOf] at ha
    | ok elems =>
      rw [hf] at ha
      cases has : src.article_selector with
      | none => rw [has] at ha; simp [emittedOf] at ha
      | some asel =>
        rw [has] at ha
        simp only [emittedOf] at ha
        obtain ⟨el, _, he⟩ := List.mem_filterMap.mp ha
        cases hpa : processGenArticle today env src cutoff srcName el with
        | error e => rw [hpa] at he; simp at he
        | ok o =>
          rw [hpa] at he
          cases o with
          | none => simp at he
          | some art' =>
            simp only [Option.some.injEq] at he
            rw [← he]
            exact processGenArticle_sound hpa

theorem processSource_sound (today : Date) (pwAvail : Bool) (cutoff : Date)
    (src : SourceConfig) (env : SourceEnv) (nm : String) :
    ∀ a ∈ emittedOf (processSource today pwAvail cutoff src env nm),
      dateLe cutoff a.resolvedDate = true := by
  intro a ha
  unfold processSource at ha
  by_cases h1 : (src.type_ == some "anthropic") = true
  · simp only [h1, if_true, emittedOf] at ha
    exact ((scrape_anthropic_sound today env.anth src cutoff).1 a ha).1
  · simp only [h1, if_false] at ha
    by_cases h2 : (src.type_ == some "playwright") = true
    · simp only [h2, if_true] at ha
      cases pwAvail with
      | false => simp [emittedOf] at ha
      | true =>
        simp only [Bool.not_true, emittedOf] at ha
        have ha' : a ∈ scrape_with_playwright today true env.uber src cutoff := by
          simpa using ha
        exact (scrape_with_playwright_sound today true env.uber src cutoff a ha').1
    · simp only [h2, if_false] at ha
      by_cases h3 : (src.type_ == some "feed") = true
      · simp only [h3, if_true, emittedOf] at ha
        exact (processFeedSource_sound today env.feed src cutoff nm a ha).1
      · simp only [h3, if_false] at ha
        exact (processGenericSource_sound today env.gen src cutoff nm a ha).1

theorem checkLoop_dates (today : Date) (pwAvail : Bool) (cutoff : Date) :
    ∀ (srcs : List (SourceConfig × SourceEnv)) (a : Article),
      a ∈ emittedOf (checkLoop today pwAvail cutoff srcs) →
      dateLe cutoff a.resolvedDate = true := by
  intro srcs
  induction srcs with
  | nil =>
    intro a ha
    simp [checkLoop, emittedOf] at ha
  | cons p rest ih =>
    intro a ha
    obtain ⟨src, env⟩ := p
    rw [checkLoop] at ha
    cases hn : src.name with
    | none =>
      rw [hn] at ha
      simp [emittedOf] at ha
    | some nm =>
      simp only [hn] at ha
      cases hps : processSource today pwAvail cutoff src env nm with
      | error e =>
        simp only [hps] at ha
        simp [emittedOf] at ha
      | ok arts =>
        simp only [hps] at ha
        cases hrest : checkLoop today pwAvail cutoff rest with
        | error e =>
          simp only [hrest] at ha
          simp [emittedOf] at ha
        | ok more =>
          simp only [hrest] at ha
          simp only [emittedOf, List.mem_append] at ha
          rcases ha with ha | ha
          · exact processSource_sound today pwAvail cutoff src env nm a (by rw [hps]; exact ha)
          · exact ih a (by rw [hrest]; exact ha)

/-! ## Concrete run fixtures for witnesses and counterexamples -/

/-- An environment whose every oracle fails: a world with no reachable
network. -/
def envBaseW : SourceEnv :=
  ⟨⟨.error .reqError, fun _ => .error .reqError, fun _ => .error .reqError⟩,
   ⟨[], .error .reqError⟩,
   ⟨.error .reqError⟩,
   ⟨.error .reqError, fun _ => .error .reqError⟩⟩

/-- A run starting 2026-01-01 00:00:00 UTC. -/
def nowW : PyDateTime := ⟨⟨2026, 1, 1⟩, 0, 0, 0, true⟩

/-- A feed source. -/
def srcFeedW : SourceConfig :=
  ⟨some "G", some "feed", some "http://g/feed", none, none, none, none, none, none⟩

/-- The feed world: one entry carrying a native timestamp. -/
def envFeedW : SourceEnv :=
  { envBaseW with feed := ⟨[⟨"T", "http://g/a", some ⟨2030, 1, 2, 3, 4, 5⟩, none⟩],
      .error .reqError⟩ }

/-- The article that run emits. -/
def artFeedW : Article :=
  ⟨"G", "T", "2030-01-02", some "http://g/a", "2030-01-02T03:04:05+00:00", ⟨2030, 1, 2⟩⟩

/-! ## C1: the cutoff invariant -/

/-- C1: for every source list and every lookback window, every article
record in the result of `check_for_new_articles` — hence every record
appended by any strategy path — has a resolved publish date on or after the
cutoff date `(now - lookback).date()`; the same holds of each strategy
function separately. -/
theorem cutoff_invariant_all_paths :
    (∀ (now : PyDateTime) (pwAvail : Bool) (sources : List (SourceConfig × SourceEnv))
       (lookback_hours : Nat),
       ∀ a ∈ emittedOf (check_for_new_articles now pwAvail sources lookback_hours),
         dateLe (cutoffOf now lookback_hours) a.resolvedDate = true) ∧
    (∀ (today : Date) (env : AnthEnv) (src : SourceConfig) (cutoff : Date),
       ∀ a ∈ scrape_anthropic_engineering today env src cutoff,
         dateLe cutoff a.resolvedDate = true) ∧
    (∀ (today : Date) (env : FeedEnv) (src : SourceConfig) (cutoff : Date) (nm : String),
       ∀ a ∈ processFeedSource today env src cutoff nm,
         dateLe cutoff a.resolvedDate = true) ∧
    (∀ (today : Date) (pwAvail : Bool) (env : UberEnv) (src : SourceConfig) (cutoff : Date),
       ∀ a ∈ scrape_uber_engineering today pwAvail env src cutoff,
         dateLe cutoff a.resolvedDate = true) := by
  refine ⟨?_, ?_, ?_, ?_⟩
  · intro now pwAvail sources lookback_hours a ha
    exact checkLoop_dates now.date pwAvail (cutoffOf now lookback_hours) sources a ha
  · intro today env src cutoff a ha
    exact ((scrape_anthropic_sound today env src cutoff).1 a ha).1
  · intro today env src cutoff nm a ha
    exact (processFeedSource_sound today env src cutoff nm a ha).1
  · intro today pwAvail env src cutoff a ha
    exact ((scrape_uber_sound today pwAvail env src cutoff).1 a ha).1

/-- Witness for `cutoff_invariant_all_paths`: a concrete feed run emits one
article and it satisfies the cutoff bound. -/
theorem cutoff_invariant_all_paths_witness :
    artFeedW ∈ emittedOf (check_for_new_articles nowW false [(srcFeedW, envFeedW)] 24) ∧
    dateLe (cutoffOf nowW 24) artFeedW.resolvedDate = true :=
  ⟨by decide,
   cutoff_invariant_all_paths.1 nowW false [(srcFeedW, envFeedW)] 24 artFeedW (by decide)⟩

deriving instance DecidableEq for Except

/-! ## C2: title and URL presence -/

/-- A generic-branch (unrecognized-type) source whose `link_selector` key is
present but `None`. -/
def srcGenW : SourceConfig :=
  ⟨some "Legacy", none, some "http://x/list", some "http://x", none,
   some "div.article", some "h2", some ".date", some none⟩

/-- The generic world: one listing element with a title and a date but no
link anywhere. -/
def envGenW : SourceEnv :=
  { envBaseW with gen := ⟨.ok [⟨some "T", some "Jan 5, 2030", none, none⟩],
      fun _ => .error .reqError⟩ }

/-- The record that run emits: its `url` is `None`. -/
def artGenW : Article :=
  ⟨"Legacy", "T", "Jan 5, 2030", none, "2030-01-05T00:00:00+00:00", ⟨2030, 1, 5⟩⟩

/-- C2 counterexample: on the generic HTML branch, a candidate whose date is
found on the listing page but whose link selector yields nothing is emitted
with a null `url` — the claimed invariant fails. -/
theorem emitted_null_url_cex :
    check_for_new_articles nowW false [(srcGenW, envGenW)] 24 = .ok [artGenW] ∧
    artGenW.url = none :=
  ⟨by decide, rfl⟩

/-- An Anthropic-type source. -/
def srcAnthW : SourceConfig :=
  ⟨some "Anthropic Engineering", some "anthropic", some "https://www.anthropic.com/engineering",
   some "https://www.anthropic.com", none, none, none, none, none⟩

/-- The Anthropic world: one `<article>` element with one dated, titled
link. -/
def envAnthW : SourceEnv :=
  { envBaseW with anth := ⟨.ok [⟨[⟨"/engineering/post1", some "T1", some "Jan 5, 2030"⟩]⟩],
      fun _ => .error .reqError, fun _ => .error .reqError⟩ }

/-- The article the Anthropic strategy emits for that world. -/
def artAnthW : Article :=
  ⟨"Anthropic Engineering", "T1", "Jan 5, 2030",
   some "https://www.anthropic.com/engineering/post1", "2030-01-05T00:00:00+00:00",
   ⟨2030, 1, 5⟩⟩

/-- C2 amended: an emitted record always carries a (string) title and a
(string) date; on the semantic-HTML and rendered-page paths the title is
moreover non-empty and the URL always present, and on the feed path the URL
is always present — but on the generic HTML branch the URL can be null
(see the counterexample). -/
theorem title_url_presence_amended :
    (∀ (today : Date) (env : AnthEnv) (src : SourceConfig) (cutoff : Date),
       ∀ a ∈ scrape_anthropic_engineering today env src cutoff,
         ¬a.title = "" ∧ ¬a.url = none) ∧
    (∀ (today : Date) (pwAvail : Bool) (env : UberEnv) (src : SourceConfig) (cutoff : Date),
       ∀ a ∈ scrape_uber_engineering today pwAvail env src cutoff,
         ¬a.title = "" ∧ ¬a.url = none) ∧
    (∀ (today : Date) (env : FeedEnv) (src : SourceConfig) (cutoff : Date) (nm : String),
       ∀ a ∈ processFeedSource today env src cutoff nm, ¬a.url = none) := by
  refine ⟨?_, ?_, ?_⟩
  · intro today env src cutoff a ha
    obtain ⟨_, ht, hu, _⟩ := (scrape_anthropic_sound today env src cutoff).1 a ha
    exact ⟨ht, hu⟩
  · intro today pwAvail env src cutoff a ha
    obtain ⟨_, ht, hu⟩ := (scrape_uber_sound today pwAvail env src cutoff).1 a ha
    exact ⟨ht, hu⟩
  · intro today env src cutoff nm a ha
    exact ((processFeedSource_sound today env src cutoff nm a ha).2).1

/-- Witness for `title_url_presence_amended`: the concrete Anthropic run
emits `artAnthW`, which has a non-empty title and a present URL. -/
theorem title_url_presence_amended_witness :
    artAnthW ∈ scrape_anthropic_engineering ⟨2026, 1, 1⟩ envAnthW.anth srcAnthW ⟨2020, 1, 1⟩ ∧
    (¬artAnthW.title = "" ∧ ¬artAnthW.url = none) :=
  ⟨by decide,
   title_url_presence_amended.1 ⟨2026, 1, 1⟩ envAnthW.anth srcAnthW ⟨2020, 1, 1⟩ artAnthW
     (by decide)⟩

/-! ## C5: where cutoff filtering happens -/

/-- C5 counterexample: with the same discovered listing, the Anthropic
strategy's output depends on the cutoff it is given — the below-cutoff
candidate is not returned at all, so fetching does NOT return one candidate
per discovered article regardless of the cutoff: the filter runs inside the
strategy. -/
theorem strategy_filters_internally_cex :
    scrape_anthropic_engineering ⟨2026, 1, 1⟩ envAnthW.anth srcAnthW ⟨2031, 1, 1⟩ = [] ∧
    scrape_anthropic_engineering ⟨2026, 1, 1⟩ envAnthW.anth srcAnthW ⟨2020, 1, 1⟩ = [artAnthW] :=
  ⟨by decide, by decide⟩

/-- C5 amended: cutoff filtering is applied exactly once per candidate, but
inside each strategy rather than centrally: every article a strategy
returns already passes the cutoff, and the orchestrator extends the
aggregate with the strategy output unchanged (no second filter). -/
theorem cutoff_filter_in_strategy_amended :
    (∀ (now : PyDateTime) (pw : Bool) (src : SourceConfig) (env : SourceEnv)
       (rest : List (SourceConfig × SourceEnv)) (lookback : Nat) (nm : String),
       src.name = some nm → src.type_ = some "anthropic" →
       check_for_new_articles now pw ((src, env) :: rest) lookback =
         (match check_for_new_articles now pw rest lookback with
          | .error e => .error e
          | .ok more => .ok (scrape_anthropic_engineering now.date env.anth src
              (cutoffOf now lookback) ++ more))) ∧
    (∀ (now : PyDateTime) (src : SourceConfig) (env : SourceEnv)
       (rest : List (SourceConfig × SourceEnv)) (lookback : Nat) (nm : String),
       src.name = some nm → src.type_ = some "playwright" →
       check_for_new_articles now true ((src, env) :: rest) lookback =
         (match check_for_new_articles now true rest lookback with
          | .error e => .error e
          | .ok more => .ok (scrape_with_playwright now.date true env.uber src
              (cutoffOf now lookback) ++ more))) ∧
    (∀ (today : Date) (env : AnthEnv) (src : SourceConfig) (cutoff : Date),
       ∀ a ∈ scrape_anthropic_engineering today env src cutoff,
         dateLe cutoff a.resolvedDate = true) ∧
    (∀ (today : Date) (pwAvail : Bool) (env : UberEnv) (src : SourceConfig) (cutoff : Date),
       ∀ a ∈ scrape_uber_engineering today pwAvail env src cutoff,
         dateLe cutoff a.resolvedDate = true) := by
  refine ⟨?_, ?_, ?_, ?_⟩
  · intro now pw src env rest lookback nm hn ht
    unfold check_for_new_articles
    rw [checkLoop]
    simp only [hn]
    have hb : (src.type_ == some "anthropic") = true := by
      rw [ht]; exact beq_self_eq_true _
    simp only [processSource, hb, if_true]
  · intro now src env rest lookback nm hn ht
    unfold check_for_new_articles
    rw [checkLoop]
    simp only [hn]
    have hb1 : (src.type_ == some "anthropic") = false := by
      rw [ht]; decide
    have hb2 : (src.type_ == some "playwright") = true := by
      rw [ht]; exact beq_self_eq_true _
    simp only [processSource, hb1, hb2, if_true, if_false, Bool.not_true]
    simp
  · intro today env src cutoff a ha
    exact ((scrape_anthropic_sound today env src cutoff).1 a ha).1
  · intro today pwAvail env src cutoff a ha
    exact ((scrape_uber_sound today pwAvail env src cutoff).1 a ha).1

/-- Witness for `cutoff_filter_in_strategy_amended`: the concrete Anthropic
run's aggregate result is exactly the strategy output. -/
theorem cutoff_filter_in_strategy_amended_witness :
    check_for_new_articles nowW false [(srcAnthW, envAnthW)] 24 =
      .ok (scrape_anthropic_engineering nowW.date envAnthW.anth srcAnthW (cutoffOf nowW 24)
        ++ []) :=
  cutoff_filter_in_strategy_amended.1 nowW false srcAnthW envAnthW [] 24
    "Anthropic Engineering" rfl rfl

/-! ## C3: per-source deduplication -/

/-- A feed world whose feed carries the same entry twice. -/
def envFeedDupW : SourceEnv :=
  { envBaseW with feed := ⟨[⟨"T", "http://g/a", some ⟨2030, 1, 2, 3, 4, 5⟩, none⟩,
      ⟨"T", "http://g/a", some ⟨2030, 1, 2, 3, 4, 5⟩, none⟩], .error .reqError⟩ }

/-- A Playwright-type source. -/
def srcUberW : SourceConfig :=
  ⟨some "Uber Engineering", some "playwright", some "https://www.uber.com/en-IN/blog/engineering/",
   some "https://www.uber.com", none, none, none, none, none⟩

/-- An Uber world with two cards whose hrefs differ only by a trailing
slash. -/
def envUberW : SourceEnv :=
  { envBaseW with uber := ⟨.ok [⟨some "/blog/x", some "T1", some "6 January / Global"⟩,
      ⟨some "/blog/x/", some "T2", some "6 January / Global"⟩]⟩ }

/-- The two articles the Uber run emits. -/
def artUber1W : Article :=
  ⟨"Uber Engineering", "T1", "2030-01-06", some "https://www.uber.com/blog/x",
   "2030-01-06T00:00:00+00:00", ⟨2030, 1, 6⟩⟩

def artUber2W : Article :=
  ⟨"Uber Engineering", "T2", "2030-01-06", some "https://www.uber.com/blog/x/",
   "2030-01-06T00:00:00+00:00", ⟨2030, 1, 6⟩⟩

/-- C3 counterexample: the feed path performs no deduplication — a feed
carrying the same entry twice emits two articles with the same (normalized)
URL; and the rendered-page path deduplicates only on the query-stripped
URL, so two cards differing by a trailing slash both emit, sharing one
normalized URL. -/
theorem dedup_cex :
    (processFeedSource ⟨2026, 1, 1⟩ envFeedDupW.feed srcFeedW ⟨2020, 1, 1⟩ "G" =
        [artFeedW, artFeedW]) ∧
    (scrape_uber_engineering ⟨2030, 1, 1⟩ true envUberW.uber srcUberW ⟨2020, 1, 1⟩ =
        [artUber1W, artUber2W] ∧
      (artUber1W.url == artUber2W.url) = false ∧
      normalize_url artUber1W.url = normalize_url artUber2W.url) :=
  ⟨by decide, by decide, by decide, by decide⟩

/-- C3 amended: within one run, the semantic-HTML path emits no two
articles sharing a normalized (query- and slash-stripped) URL; the
rendered-page path deduplicates only by query-stripped URL (its emitted
`url` fields are pairwise distinct, but trailing-slash variants can share a
normalized URL); the feed path does not deduplicate at all. -/
theorem dedup_per_strategy_amended :
    (∀ (today : Date) (env : AnthEnv) (src : SourceConfig) (cutoff : Date),
       (scrape_anthropic_engineering today env src cutoff).Pairwise
         (fun x y => normalize_url x.url ≠ normalize_url y.url)) ∧
    (∀ (today : Date) (pwAvail : Bool) (env : UberEnv) (src : SourceConfig) (cutoff : Date),
       (scrape_uber_engineering today pwAvail env src cutoff).Pairwise
         (fun x y => x.url ≠ y.url)) :=
  ⟨fun today env src cutoff => (scrape_anthropic_sound today env src cutoff).2,
   fun today pwAvail env src cutoff => (scrape_uber_sound today pwAvail env src cutoff).2⟩

/-! ## C4: error containment -/

/-- A source of unrecognized type whose `article_selector` key is absent. -/
def srcBadW : SourceConfig :=
  ⟨some "Old", none, some "http://x/list", none, none, none, none, none, none⟩

/-- A generic world whose listing fetch succeeds (empty listing). -/
def envBadW : SourceEnv :=
  { envBaseW with gen := ⟨.ok [], fun _ => .error .reqError⟩ }

/-- C4 counterexample: for a source falling into the generic branch, the
read of `source['article_selector']` happens outside any enclosing
`try`/`except`, so the `KeyError` escapes `check_for_new_articles` — the
run does not end with a (worst-case empty) result list. -/
theorem source_error_escape_cex :
    check_for_new_articles nowW false [(srcBadW, envBadW)] 24 = .error .keyError := by
  decide

theorem processSource_ok (today : Date) (pwAvail : Bool) (cutoff : Date)
    (src : SourceConfig) (env : SourceEnv) (nm : String)
    (h : src.type_ = some "anthropic" ∨ src.type_ = some "playwright" ∨
      src.type_ = some "feed" ∨ (src.url ≠ none ∧ src.article_selector ≠ none)) :
    (processSource today pwAvail cutoff src env nm).isOk = true := by
  unfold processSource
  by_cases h1 : (src.type_ == some "anthropic") = true
  · simp [h1, Except.isOk, Except.toBool]
  · simp only [h1, if_false]
    by_cases h2 : (src.type_ == some "playwright") = true
    · cases pwAvail <;> simp [h2, Except.isOk, Except.toBool]
    · simp only [h2, if_false]
      by_cases h3 : (src.type_ == some "feed") = true
      · simp [h3, Except.isOk, Except.toBool]
      · simp only [h3, if_false]
        have h4 : src.url ≠ none ∧ src.article_selector ≠ none := by
          rcases h with h | h | h | h
          · exact absurd (by rw [h]; exact beq_self_eq_true _) h1
          · exact absurd (by rw [h]; exact beq_self_eq_true _) h2
          · exact absurd (by rw [h]; exact beq_self_eq_true _) h3
          · exact h
        unfold processGenericSource
        cases hu : src.url with
        | none => exact absurd hu h4.1
        | some u =>
          cases hf : env.gen.fetchG with
          | error e => simp [Except.isOk, Except.toBool]
          | ok elems =>
            cases has : src.article_selector with
            | none => exact absurd has h4.2
            | some asel => simp [Except.isOk, Except.toBool]

/-- C4 amended: an exception in a typed (anthropic/playwright/feed) source,
and a listing-fetch failure or any per-article failure in the generic
branch, are all caught: when every source either has a recognized type or
carries its `url` and `article_selector` keys, `check_for_new_articles`
returns a result list (never an exception).  A failing typed source
contributes nothing and processing of the remaining sources continues
unchanged.  But a source reaching the generic branch without those keys
raises a `KeyError` that escapes (see the counterexample). -/
theorem error_containment_amended :
    (∀ (now : PyDateTime) (pw : Bool) (sources : List (SourceConfig × SourceEnv))
       (lookback : Nat),
       (∀ p ∈ sources, p.1.name ≠ none ∧
          (p.1.type_ = some "anthropic" ∨ p.1.type_ = some "playwright" ∨
           p.1.type_ = some "feed" ∨ (p.1.url ≠ none ∧ p.1.article_selector ≠ none))) →
       (check_for_new_articles now pw sources lookback).isOk = true) ∧
    (∀ (now : PyDateTime) (pw : Bool) (src : SourceConfig) (env : SourceEnv)
       (rest : List (SourceConfig × SourceEnv)) (lookback : Nat) (e : PyErr),
       src.name ≠ none → src.type_ = some "anthropic" → env.anth.page = .error e →
       check_for_new_articles now pw ((src, env) :: rest) lookback =
         check_for_new_articles now pw rest lookback) := by
  constructor
  · intro now pw sources lookback h
    unfold check_for_new_articles
    induction sources with
    | nil => simp [checkLoop, Except.isOk, Except.toBool]
    | cons p rest ih =>
      obtain ⟨src, env⟩ := p
      obtain ⟨hname, htype⟩ := h (src, env) (by simp)
      rw [checkLoop]
      cases hn : src.name with
      | none => exact absurd hn hname
      | some nm =>
        have hps := processSource_ok now.date pw (cutoffOf now lookback) src env nm htype
        cases hps2 : processSource now.date pw (cutoffOf now lookback) src env nm with
        | error e => rw [hps2] at hps; simp [Except.isOk, Except.toBool] at hps
        | ok arts =>
          have ihr := ih (fun q hq => h q (by simp [hq]))
          cases hrest : checkLoop now.date pw (cutoffOf now lookback) rest with
          | error e => rw [hrest] at ihr; simp [Except.isOk, Except.toBool] at ihr
          | ok more => simp [hps2, Except.isOk, Except.toBool]
  · intro now pw src env rest lookback e hname htype hpage
    unfold check_for_new_articles
    rw [checkLoop]
    cases hn : src.name with
    | none => exact absurd hn hname
    | some nm =>
      have hb : (src.type_ == some "anthropic") = true := by
        rw [htype]; exact beq_self_eq_true _
      have hscrape : scrape_anthropic_engineering now.date env.anth src
          (cutoffOf now lookback) = [] := by
        unfold scrape_anthropic_engineering
        rw [hpage]
      simp only [processSource, hb, if_true, hscrape]
      cases hrest : checkLoop now.date pw (cutoffOf now lookback) rest <;> simp

/-- Witness for `error_containment_amended`: the concrete feed run returns a
list, and prefixing it with an Anthropic source whose fetch fails leaves
the result unchanged. -/
theorem error_containment_amended_witness :
    (check_for_new_articles nowW false [(srcFeedW, envFeedW)] 24).isOk = true ∧
    check_for_new_articles nowW false ((srcAnthW, envBaseW) :: [(srcFeedW, envFeedW)]) 24 =
      check_for_new_articles nowW false [(srcFeedW, envFeedW)] 24 :=
  ⟨error_containment_amended.1 nowW false [(srcFeedW, envFeedW)] 24 (by decide),
   error_containment_amended.2 nowW false srcAnthW envBaseW [(srcFeedW, envFeedW)] 24
     .reqError (by decide) rfl rfl⟩
